import Mathlib

/-!
# plugin-gcr: a shallow embedding of the push plugin

The Go sources `plugin.go`, `client.go` and `docker.go` are embedded as Lean
functions.  A Go `string` is a Lean `String` (a sequence of characters); every
pattern the program searches for is ASCII, so matching on characters and on
UTF-8 bytes finds the same occurrences.  Brace characters inside string
literals are written with the escapes `\x7b` and `\x7d`.
-/

namespace Gcr

/-! ## The Go `strings` package -/

/-- Scanner behind `strings.ReplaceAll` for a non-empty `old`: walks the text
left to right; `skip` counts the characters of an occurrence of `old` still to
be passed over, so occurrences are the leftmost non-overlapping ones. -/
def replaceGo (old new : List Char) : Nat → List Char → List Char
  | _, [] => []
  | skip + 1, _ :: s => replaceGo old new skip s
  | 0, c :: s =>
    if old.isPrefixOf (c :: s) then new ++ replaceGo old new (old.length - 1) s
    else c :: replaceGo old new 0 s

/-- Go `strings.ReplaceAll(s, old, new)`.  An empty `old` matches at the start
of the text and after every character. -/
def ReplaceAll (s old new : String) : String :=
  if old.data = [] then ⟨new.data ++ s.data.flatMap (fun c => c :: new.data)⟩
  else ⟨replaceGo old.data new.data 0 s.data⟩

/-- Scanner behind `strings.Contains`: is `sub` a prefix of some suffix. -/
def containsGo (sub : List Char) : List Char → Bool
  | [] => sub.isPrefixOf []
  | c :: s => sub.isPrefixOf (c :: s) || containsGo sub s

/-- Go `strings.Contains(s, substr)`. -/
def Contains (s substr : String) : Bool :=
  containsGo substr.data s.data

/-! ## `plugin.ReleaseContext` (the fields the plugin reads) -/

/-- Release context supplied by the host. -/
structure ReleaseContext where
  Version : String
  PreviousVersion : String
  TagName : String
  ReleaseType : String
  Branch : String
  deriving DecidableEq, Repr

/-! ## Tag templates (`plugin.go`, `processTemplate` and `processTags`) -/

/-- Source `GCRPlugin.processTemplate`: replaces template variables. -/
def processTemplate (tmpl : String) (ctx : ReleaseContext) : String :=
  let result := tmpl
  -- Handle conditional templates (simplified)
  if Contains result "\x7b\x7bif" then
    ""
  else
    let result := ReplaceAll result "\x7b\x7b.Version\x7d\x7d" ctx.Version
    let result := ReplaceAll result "\x7b\x7b.PreviousVersion\x7d\x7d" ctx.PreviousVersion
    let result := ReplaceAll result "\x7b\x7b.TagName\x7d\x7d" ctx.TagName
    let result := ReplaceAll result "\x7b\x7b.ReleaseType\x7d\x7d" ctx.ReleaseType
    -- Handle branch name
    if ctx.Branch ≠ "" then
      let safeBranch := ReplaceAll ctx.Branch "/" "-"
      ReplaceAll result "\x7b\x7b.Branch\x7d\x7d" safeBranch
    else
      result

/-- Loop of `GCRPlugin.processTags`: `processed` is the slice built so far. -/
def processTagsLoop (ctx : ReleaseContext) : List String → List String → List String
  | [], processed => processed
  | tag :: rest, processed =>
    let result := processTemplate tag ctx
    if result ≠ "" then processTagsLoop ctx rest (processed ++ [result])
    else processTagsLoop ctx rest processed

/-- Source `GCRPlugin.processTags`: processes tag templates with the release
context. -/
def processTags (tags : List String) (ctx : ReleaseContext) : List String :=
  processTagsLoop ctx tags []

/-! ## Go errors and the outside world -/

/-- A Go `error`: its message, and the error it wraps when it was built by
`fmt.Errorf` with the `%w` verb. -/
inductive GoError where
  | leaf (msg : String)
  | wrap (msg : String) (inner : GoError)
  deriving DecidableEq, Repr

/-- Go `err.Error()`. -/
def GoError.Error : GoError → String
  | .leaf msg => msg
  | .wrap msg _ => msg

/-- Go `errors.Unwrap(err)`. -/
def GoError.Unwrap : GoError → Option GoError
  | .leaf _ => none
  | .wrap _ inner => some inner

/-- How an `exec.Cmd` is run: `CombinedOutput()`, `Output()` or `Run()`. -/
inductive Capture where
  | CombinedOutput
  | Output
  | Run
  deriving DecidableEq, Repr

/-- An `exec.CommandContext(ctx, name, args...)` together with its `Stdin`
and the method that runs it. -/
structure Cmd where
  name : String
  args : List String
  stdin : Option String
  how : Capture
  deriving DecidableEq, Repr

/-- What running a command returns: the captured output and the error. -/
structure ExecResult where
  output : String
  err : Option GoError
  deriving DecidableEq, Repr

/-- Source `AuthConfig` (`client.go`). -/
structure AuthConfig where
  Method : String
  KeyFile : String
  KeyJSON : String
  deriving DecidableEq, Repr

/-- The calls `Execute` makes on its collaborators: `GCRClient.Authenticate`,
`DockerClient.Tag` and `DockerClient.Push`, with their arguments. -/
inductive Call where
  | Authenticate (region : String) (auth : Option AuthConfig)
  | Tag (source target : String)
  | Push (image : String)
  deriving DecidableEq, Repr

/-- One observable step of a run: a collaborator call that returned `err`,
a process that was started, or a line written to standard output. -/
inductive Event where
  | call (c : Call) (err : Option GoError)
  | exec (cmd : Cmd)
  | print (line : String)
  deriving DecidableEq, Repr

/-- The history of a run, oldest event first. -/
abbrev Trace := List Event

/-- The outside world: what a command returns, given everything that
happened before it.  Every behaviour of the external tools is one such
function. -/
abbrev World := Trace → Cmd → ExecResult

/-- Runs a command: asks the world for the result and records the process. -/
def runCmd (w : World) (cmd : Cmd) (t : Trace) : ExecResult × Trace :=
  (w t cmd, t ++ [Event.exec cmd])

/-- Runs a collaborator call and records it, with the error it returned,
when it returns. -/
def observe (c : Call) (m : Trace → Option GoError × Trace) (t : Trace) :
    Option GoError × Trace :=
  match m t with
  | (r, t1) => (r, t1 ++ [Event.call c r])

/-- Is the event a collaborator call. -/
def Event.isCall : Event → Bool
  | .call _ _ => true
  | _ => false

/-- Is the event a started process. -/
def Event.isExec : Event → Bool
  | .exec _ => true
  | _ => false

/-- The collaborator calls of a history, in order. -/
def calls (t : Trace) : List Event := t.filter Event.isCall

/-- The processes started in a history, in order. -/
def execs (t : Trace) : List Event := t.filter Event.isExec

/-! ## `docker.go` -/

/-- Source `DockerClient.Tag`: tags a Docker image. -/
def DockerClient.Tag (w : World) (source target : String) (t : Trace) :
    Option GoError × Trace :=
  match runCmd w ⟨"docker", ["tag", source, target], none, .CombinedOutput⟩ t with
  | (r, t1) =>
    match r.err with
    | some err =>
      (some (.wrap ("docker tag failed: " ++ err.Error ++ "\n" ++ r.output) err), t1)
    | none => (none, t1)

/-- Source `DockerClient.Push`: pushes a Docker image. -/
def DockerClient.Push (w : World) (image : String) (t : Trace) :
    Option GoError × Trace :=
  match runCmd w ⟨"docker", ["push", image], none, .CombinedOutput⟩ t with
  | (r, t1) =>
    match r.err with
    | some err =>
      (some (.wrap ("docker push failed: " ++ err.Error ++ "\n" ++ r.output) err), t1)
    | none => (none, t1)

/-- Source `DockerClient.ImageExists`: any failure of the probe is reported as
"does not exist", never as an error. -/
def DockerClient.ImageExists (w : World) (image : String) (t : Trace) :
    (Bool × Option GoError) × Trace :=
  match runCmd w ⟨"docker", ["image", "inspect", image], none, .Run⟩ t with
  | (r, t1) =>
    match r.err with
    | some _ => ((false, none), t1)
    | none => ((true, none), t1)

/-! ## `client.go` -/

/-- Source `GCRConfig`. -/
structure GCRConfig where
  Project : String
  Region : String
  Repository : String
  ArtifactRegistry : Bool
  deriving DecidableEq, Repr

/-- Source `GCRClient`. -/
structure GCRClient where
  config : GCRConfig
  deriving DecidableEq, Repr

/-- Source `NewGCRClient`. -/
def NewGCRClient (config : GCRConfig) : GCRClient := { config := config }

/-- Source `GCRClient.getRegistryHost`: the registry host of a region. -/
def GCRClient.getRegistryHost (c : GCRClient) (region : String) : String :=
  if c.config.ArtifactRegistry then
    region ++ "-docker.pkg.dev"
  else if region = "us" then "gcr.io"
  else if region = "eu" ∨ region = "europe" then "eu.gcr.io"
  else if region = "asia" then "asia.gcr.io"
  else "gcr.io"

/-- Source `GCRClient.GetImagePath`: the full image path. -/
def GCRClient.GetImagePath (c : GCRClient) (image : String) : String :=
  if c.config.ArtifactRegistry then
    c.config.Region ++ "-docker.pkg.dev/" ++ c.config.Project ++ "/"
      ++ c.config.Repository ++ "/" ++ image
  else
    let registryHost := c.getRegistryHost c.config.Region
    registryHost ++ "/" ++ c.config.Project ++ "/" ++ image

/-- Source `GCRClient.GetRegistryHost`. -/
def GCRClient.GetRegistryHost (c : GCRClient) : String :=
  c.getRegistryHost c.config.Region

/-- Source `GCRClient.authenticateGcloud`. -/
def GCRClient.authenticateGcloud (c : GCRClient) (w : World) (region : String)
    (t : Trace) : Option GoError × Trace :=
  let registryHost := c.getRegistryHost region
  match runCmd w ⟨"gcloud", ["auth", "configure-docker", registryHost, "--quiet"], none,
      .CombinedOutput⟩ t with
  | (r, t1) =>
    match r.err with
    | some err =>
      (some (.wrap ("gcloud auth failed: " ++ err.Error ++ "\n" ++ r.output) err), t1)
    | none => (none, t1)

/-- Last step of `authenticateServiceAccount`: `docker login` with the key on
standard input. -/
def GCRClient.dockerLogin (w : World) (registryHost keyData : String) (t : Trace) :
    Option GoError × Trace :=
  match runCmd w ⟨"docker", ["login", "-u", "_json_key", "--password-stdin", registryHost],
      some keyData, .CombinedOutput⟩ t with
  | (r, t1) =>
    match r.err with
    | some err =>
      (some (.wrap ("docker login failed: " ++ err.Error ++ "\n" ++ r.output) err), t1)
    | none => (none, t1)

/-- Source `GCRClient.authenticateServiceAccount`. -/
def GCRClient.authenticateServiceAccount (c : GCRClient) (w : World) (region : String)
    (auth : AuthConfig) (t : Trace) : Option GoError × Trace :=
  let registryHost := c.getRegistryHost region
  if auth.KeyFile ≠ "" then
    -- Read key from file
    match runCmd w ⟨"cat", [auth.KeyFile], none, .Output⟩ t with
    | (r, t1) =>
      match r.err with
      | some err => (some (.wrap ("failed to read key file: " ++ err.Error) err), t1)
      | none => GCRClient.dockerLogin w registryHost r.output t1
  else if auth.KeyJSON ≠ "" then
    GCRClient.dockerLogin w registryHost auth.KeyJSON t
  else
    (some (.leaf "service account key not provided"), t)

/-- Source `GCRClient.Authenticate`. -/
def GCRClient.Authenticate (c : GCRClient) (w : World) (region : String)
    (auth : Option AuthConfig) (t : Trace) : Option GoError × Trace :=
  let auth := match auth with
    | none => ({ Method := "gcloud", KeyFile := "", KeyJSON := "" } : AuthConfig)
    | some a => a
  if auth.Method = "gcloud" ∨ auth.Method = "" then
    c.authenticateGcloud w region t
  else if auth.Method = "service_account" then
    c.authenticateServiceAccount w region auth t
  else
    (some (.leaf ("unknown auth method: " ++ auth.Method)), t)

/-! ## Host SDK types used by `plugin.go` -/

/-- A Go value of type `any`, as far as configuration maps and output maps
hold them. -/
inductive Any where
  | null
  | bool (b : Bool)
  | str (s : String)
  | int (n : Int)
  | strs (xs : List String)
  | list (xs : List Any)
  | map (kvs : List (String × Any))

/-- A Go `map[string]any`, as its key/value pairs. -/
abbrev RawMap := List (String × Any)

/-- Go map indexing `m[key]`. -/
def RawMap.get (m : RawMap) (key : String) : Option Any := List.lookup key m

/-- The SDK's `helpers.ConfigParser`, whose code is not part of this
repository: its three getters are taken as parameters.  `GetString raw key
envVar defaultVal`, `GetBool raw key defaultVal` and `GetStringSlice raw key
defaultVal` stand for the getter called on `helpers.NewConfigParser(raw)`. -/
structure ConfigParser where
  GetString : RawMap → String → String → String → String
  GetBool : RawMap → String → Bool → Bool
  GetStringSlice : RawMap → String → List String → List String

/-- SDK type `plugin.ExecuteRequest` (the fields the plugin reads). -/
structure ExecuteRequest where
  Config : RawMap
  Context : ReleaseContext
  DryRun : Bool

/-- SDK type `plugin.ExecuteResponse`. -/
structure ExecuteResponse where
  Success : Bool
  Message : String
  Outputs : RawMap

/-- Modelled from the spec: the SDK's `plugin.ValidationError`, the
"ValidationIssue" record with a field and a message. -/
structure ValidationError where
  Field : String
  Message : String
  deriving DecidableEq, Repr

/-- Modelled from the spec: the SDK's `plugin.ValidateResponse`; the ordered
sequence of issues, and zero issues means the configuration is accepted. -/
structure ValidateResponse where
  Valid : Bool
  Errors : List ValidationError
  deriving DecidableEq, Repr

/-- Modelled from the spec: the SDK's `helpers.ValidationBuilder`, which
accumulates the issues in the order they are added. -/
structure ValidationBuilder where
  errors : List ValidationError
  deriving DecidableEq, Repr

/-- Modelled from the spec: `helpers.NewValidationBuilder()`, with no issue. -/
def NewValidationBuilder : ValidationBuilder := { errors := [] }

/-- Modelled from the spec: `vb.AddError(field, message)` appends one issue. -/
def ValidationBuilder.AddError (vb : ValidationBuilder) (field message : String) :
    ValidationBuilder :=
  { errors := vb.errors ++ [{ Field := field, Message := message }] }

/-- Modelled from the spec: `vb.Build()` returns the issues accumulated. -/
def ValidationBuilder.Build (vb : ValidationBuilder) : ValidateResponse :=
  { Valid := vb.errors.isEmpty, Errors := vb.errors }

/-! ## `plugin.go` -/

/-- Source `Config`: the plugin configuration. -/
structure Config where
  ArtifactRegistry : Bool
  Project : String
  Region : String
  Repository : String
  Image : String
  AuthMethod : String
  KeyFile : String
  KeyJSON : String
  SourceImage : String
  Tags : List String
  MultiRegionEnabled : Bool
  MultiRegionRegions : List String
  DryRun : Bool
  deriving DecidableEq, Repr

/-- Source `GCRPlugin.parseConfig`: parses the raw configuration. -/
def parseConfig (p : ConfigParser) (raw : RawMap) : Config :=
  let tags := p.GetStringSlice raw "tags" []
  let tags := if tags.length = 0 then ["\x7b\x7b.Version\x7d\x7d"] else tags
  let multiRegionRegions := p.GetStringSlice raw "multi_region.regions" []
  -- Parse nested auth config
  let auth : String × String × String :=
    match raw.get "auth" with
    | some (.map authRaw) =>
      (p.GetString authRaw "method" "" "gcloud",
       p.GetString authRaw "key_file" "GOOGLE_APPLICATION_CREDENTIALS" "",
       p.GetString authRaw "key_json" "GCP_SERVICE_ACCOUNT_JSON" "")
    | _ => ("gcloud", "", "")
  -- Parse nested multi_region config
  let multiRegionEnabled :=
    match raw.get "multi_region" with
    | some (.map mrRaw) => p.GetBool mrRaw "enabled" false
    | _ => false
  { ArtifactRegistry := p.GetBool raw "artifact_registry" true
    Project := p.GetString raw "project" "CLOUDSDK_CORE_PROJECT" ""
    Region := p.GetString raw "region" "" "us-central1"
    Repository := p.GetString raw "repository" "" ""
    Image := p.GetString raw "image" "" ""
    AuthMethod := auth.1
    KeyFile := auth.2.1
    KeyJSON := auth.2.2
    SourceImage := p.GetString raw "source_image" "" ""
    Tags := tags
    MultiRegionEnabled := multiRegionEnabled
    MultiRegionRegions := multiRegionRegions
    DryRun := p.GetBool raw "dry_run" false }

/-- Source `GCRPlugin.Validate`: validates the plugin configuration.  Returns
the response and the error, as the Go function does. -/
def Validate (p : ConfigParser) (config : RawMap) : ValidateResponse × Option GoError :=
  let vb := NewValidationBuilder
  let cfg := parseConfig p config
  -- Project is required
  let vb := if cfg.Project = "" then vb.AddError "project" "GCP project ID is required" else vb
  -- Image name is required
  let vb := if cfg.Image = "" then vb.AddError "image" "image name is required" else vb
  -- Source image is required
  let vb := if cfg.SourceImage = "" then
    vb.AddError "source_image" "source image is required" else vb
  -- Repository required for Artifact Registry
  let vb := if cfg.ArtifactRegistry = true ∧ cfg.Repository = "" then
    vb.AddError "repository" "repository name required for Artifact Registry" else vb
  -- Validate auth method
  let vb := if cfg.AuthMethod ≠ "" ∧ cfg.AuthMethod ≠ "gcloud"
      ∧ cfg.AuthMethod ≠ "service_account" then
    vb.AddError "auth.method" "auth method must be 'gcloud' or 'service_account'" else vb
  -- Service account requires key
  let vb := if cfg.AuthMethod = "service_account" ∧ cfg.KeyFile = "" ∧ cfg.KeyJSON = "" then
    vb.AddError "auth" "service account requires key_file or key_json" else vb
  (vb.Build, none)

/-- Authentication loop of `Execute`: one `Authenticate` per region, stopping
at the first failure. -/
def authLoop (w : World) (client : GCRClient) (cfg : Config) :
    List String → Trace → Option GoError × Trace
  | [], t => (none, t)
  | region :: rest, t =>
    let authCfg : AuthConfig :=
      { Method := cfg.AuthMethod, KeyFile := cfg.KeyFile, KeyJSON := cfg.KeyJSON }
    match observe (.Authenticate region (some authCfg))
        (client.Authenticate w region (some authCfg)) t with
    | (some err, t1) =>
      (some (.wrap ("failed to authenticate with " ++ region ++ ": " ++ err.Error) err), t1)
    | (none, t1) => authLoop w client cfg rest t1

/-- Inner loop of `Execute` over the resolved tags of one region;
`pushedImages` is the slice built so far.  Returns the error that aborts the
run, or the extended slice. -/
def pushTagsLoop (w : World) (cfg : Config) (regionClient : GCRClient) :
    List String → List String → Trace → Except GoError (List String) × Trace
  | [], pushedImages, t => (.ok pushedImages, t)
  | tag :: rest, pushedImages, t =>
    if tag = "" then
      pushTagsLoop w cfg regionClient rest pushedImages t
    else
      let targetImage := regionClient.GetImagePath cfg.Image ++ ":" ++ tag
      if cfg.DryRun then
        let t1 := t ++ [Event.print
          ("[dry-run] Would tag " ++ cfg.SourceImage ++ " as " ++ targetImage ++ "\n")]
        let t2 := t1 ++ [Event.print ("[dry-run] Would push " ++ targetImage ++ "\n")]
        pushTagsLoop w cfg regionClient rest (pushedImages ++ [targetImage]) t2
      else
        -- Tag the image
        match observe (.Tag cfg.SourceImage targetImage)
            (DockerClient.Tag w cfg.SourceImage targetImage) t with
        | (some err, t1) =>
          (.error (.wrap ("failed to tag image: " ++ err.Error) err), t1)
        | (none, t1) =>
          -- Push the image
          match observe (.Push targetImage) (DockerClient.Push w targetImage) t1 with
          | (some err, t2) =>
            (.error (.wrap ("failed to push image: " ++ err.Error) err), t2)
          | (none, t2) =>
            let t3 := t2 ++ [Event.print ("Pushed: " ++ targetImage ++ "\n")]
            pushTagsLoop w cfg regionClient rest (pushedImages ++ [targetImage]) t3

/-- Outer loop of `Execute` over the target regions. -/
def pushRegionsLoop (w : World) (cfg : Config) (tags : List String) :
    List String → List String → Trace → Except GoError (List String) × Trace
  | [], pushedImages, t => (.ok pushedImages, t)
  | region :: rest, pushedImages, t =>
    let regionClient := NewGCRClient
      { Project := cfg.Project, Region := region, Repository := cfg.Repository,
        ArtifactRegistry := cfg.ArtifactRegistry }
    match pushTagsLoop w cfg regionClient tags pushedImages t with
    | (.error err, t1) => (.error err, t1)
    | (.ok pushedImages1, t1) => pushRegionsLoop w cfg tags rest pushedImages1 t1

/-- The regions `Execute` works on ("Determine regions to push to"). -/
def targetRegions (cfg : Config) : List String :=
  if cfg.MultiRegionEnabled = true ∧ cfg.MultiRegionRegions.length > 0 then
    cfg.MultiRegionRegions
  else [cfg.Region]

/-- Body of `Execute` after the configuration is parsed and the two dry-run
flags are combined into `cfg.DryRun`. -/
def executeCfg (w : World) (cfg : Config) (ctx : ReleaseContext) :
    (Option ExecuteResponse × Option GoError) × Trace :=
  -- Process tag templates
  let tags := processTags cfg.Tags ctx
  -- Create GCR client
  let client := NewGCRClient
    { Project := cfg.Project, Region := cfg.Region, Repository := cfg.Repository,
      ArtifactRegistry := cfg.ArtifactRegistry }
  -- Determine regions to push to
  let regions := targetRegions cfg
  -- Authenticate with GCR
  let authed : Option GoError × Trace :=
    if cfg.DryRun = false then authLoop w client cfg regions [] else (none, [])
  match authed with
  | (some err, t) => ((none, some err), t)
  | (none, t) =>
    -- Push images to each region
    match pushRegionsLoop w cfg tags regions [] t with
    | (.error err, t1) => ((none, some err), t1)
    | (.ok pushedImages, t1) =>
      ((some
        { Success := true
          Message := "Successfully pushed " ++ toString pushedImages.length
            ++ " image(s) to GCR"
          Outputs := [("project", .str cfg.Project), ("repository", .str cfg.Repository),
            ("tags", .strs tags), ("pushed_images", .strs pushedImages)] }, none), t1)

/-- First two statements of `Execute`: the parsed configuration, with the
request's dry-run flag or-ed into its own. -/
def effectiveConfig (p : ConfigParser) (req : ExecuteRequest) : Config :=
  let cfg := parseConfig p req.Config
  { cfg with DryRun := cfg.DryRun || req.DryRun }

/-- Source `GCRPlugin.Execute`: runs the plugin logic, from an empty history.
Returns the response and the error, as the Go function does, and the history
of the run. -/
def Execute (p : ConfigParser) (w : World) (req : ExecuteRequest) :
    (Option ExecuteResponse × Option GoError) × Trace :=
  executeCfg w (effectiveConfig p req) req.Context

/-! ## Vocabulary of the statements -/

/-- The `docker tag` process started by `DockerClient.Tag`. -/
def tagCmd (source target : String) : Cmd :=
  ⟨"docker", ["tag", source, target], none, .CombinedOutput⟩

/-- The `docker push` process started by `DockerClient.Push`. -/
def pushCmd (image : String) : Cmd :=
  ⟨"docker", ["push", image], none, .CombinedOutput⟩

/-- The authentication settings `Execute` passes to `Authenticate`. -/
def authCfgOf (cfg : Config) : AuthConfig :=
  { Method := cfg.AuthMethod, KeyFile := cfg.KeyFile, KeyJSON := cfg.KeyJSON }

/-- The per-region client `Execute` builds inside its push loop. -/
def regionClientOf (cfg : Config) (region : String) : GCRClient :=
  NewGCRClient
    { Project := cfg.Project, Region := region, Repository := cfg.Repository,
      ArtifactRegistry := cfg.ArtifactRegistry }

/-- The image reference of one (region, tag) pair. -/
def targetImage (cfg : Config) (region tag : String) : String :=
  (regionClientOf cfg region).GetImagePath cfg.Image ++ ":" ++ tag

/-- The image references of all pairs, region-major and tag-minor. -/
def targetImages (cfg : Config) (regions tags : List String) : List String :=
  regions.flatMap (fun region => tags.map (targetImage cfg region))

/-- A successful `Authenticate` call for a region. -/
def authOk (cfg : Config) (region : String) : Event :=
  .call (.Authenticate region (some (authCfgOf cfg))) none

/-- A successful tag of the source image as `target`, then a successful push
of `target`. -/
def pairOk (cfg : Config) (target : String) : List Event :=
  [.call (.Tag cfg.SourceImage target) none, .call (.Push target) none]

/-- Did the event go well: a collaborator call that returned no error (other
events always count as well). -/
def Event.ok : Event → Bool
  | .call _ (some _) => false
  | _ => true

/-- Is the call an `Authenticate`. -/
def Call.isAuthenticate : Call → Bool
  | .Authenticate _ _ => true
  | _ => false

/-- The response `Execute` returns on success. -/
def successResponse (cfg : Config) (tags pushedImages : List String) : ExecuteResponse :=
  { Success := true
    Message := "Successfully pushed " ++ toString pushedImages.length ++ " image(s) to GCR"
    Outputs := [("project", .str cfg.Project), ("repository", .str cfg.Repository),
      ("tags", .strs tags), ("pushed_images", .strs pushedImages)] }

/-- The error `DockerClient.Tag` or `DockerClient.Push` builds from a failed
process: `op` is `tag` or `push`, `e` the process error and `output` what the
process printed. -/
def dockerErr (op : String) (e : GoError) (output : String) : GoError :=
  .wrap ("docker " ++ op ++ " failed: " ++ e.Error ++ "\n" ++ output) e

/-- The history `t1` ends in a failed tag or a failed push of `x`: the
process failed with some error `e`, the collaborator returned `dockerErr`, the
call is the last event, `fails` are the calls made for `x`, and `err` is the
error `Execute` returns. -/
def TagPushFailure (w : World) (cfg : Config) (x : String) (t1 : Trace) (err : GoError)
    (fails : List Event) : Prop :=
  (∃ t0 e, (w t0 (tagCmd cfg.SourceImage x)).err = some e ∧
    t1 = t0 ++ [.exec (tagCmd cfg.SourceImage x),
      .call (.Tag cfg.SourceImage x)
        (some (dockerErr "tag" e (w t0 (tagCmd cfg.SourceImage x)).output))] ∧
    fails = [.call (.Tag cfg.SourceImage x)
        (some (dockerErr "tag" e (w t0 (tagCmd cfg.SourceImage x)).output))] ∧
    err = .wrap ("failed to tag image: "
        ++ (dockerErr "tag" e (w t0 (tagCmd cfg.SourceImage x)).output).Error)
      (dockerErr "tag" e (w t0 (tagCmd cfg.SourceImage x)).output))
  ∨ (∃ t0 e, (w t0 (pushCmd x)).err = some e ∧
    t1 = t0 ++ [.exec (pushCmd x),
      .call (.Push x) (some (dockerErr "push" e (w t0 (pushCmd x)).output))] ∧
    fails = [.call (.Tag cfg.SourceImage x) none,
      .call (.Push x) (some (dockerErr "push" e (w t0 (pushCmd x)).output))] ∧
    err = .wrap ("failed to push image: "
        ++ (dockerErr "push" e (w t0 (pushCmd x)).output).Error)
      (dockerErr "push" e (w t0 (pushCmd x)).output))

/-! ## Concrete inputs for the examples -/

/-- A release context whose version is the text of another placeholder. -/
def ctxNestedVersion : ReleaseContext :=
  { Version := "\x7b\x7b.TagName\x7d\x7d", PreviousVersion := "", TagName := "v1",
    ReleaseType := "", Branch := "" }

/-- A configuration parser that looks every key up literally in the map and
reads no environment variable: one behaviour the SDK's parser can have, used
to run the plugin on concrete maps. -/
def plainParser : ConfigParser :=
  { GetString := fun raw key _ defaultVal =>
      match raw.get key with
      | some (.str v) => v
      | _ => defaultVal
    GetBool := fun raw key defaultVal =>
      match raw.get key with
      | some (.bool v) => v
      | _ => defaultVal
    GetStringSlice := fun raw key defaultVal =>
      match raw.get key with
      | some (.strs v) => v
      | _ => defaultVal }

/-- A world in which every process succeeds and prints nothing. -/
def quietWorld : World := fun _ _ => { output := "", err := none }

/-- A world in which the given command fails with `exit status 1` and the
given output, and every other process succeeds. -/
def failingWorld (bad : Cmd) (output : String) : World := fun _ cmd =>
  if cmd = bad then { output := output, err := some (.leaf "exit status 1") }
  else { output := "", err := none }

/-- A release context with version `1.0.0`. -/
def ctxRelease : ReleaseContext :=
  { Version := "1.0.0", PreviousVersion := "0.9.0", TagName := "v1.0.0",
    ReleaseType := "minor", Branch := "main" }

/-- A raw configuration with two regions under `multi_region` and the two tag
templates `{{.Version}}` and `latest`. -/
def rawTwoRegions : RawMap :=
  [("project", .str "p"), ("repository", .str "r"), ("image", .str "app"),
   ("source_image", .str "app:build"),
   ("tags", .strs ["\x7b\x7b.Version\x7d\x7d", "latest"]),
   ("multi_region", .map [("enabled", .bool true)]),
   ("multi_region.regions", .strs ["us-central1", "europe-west1"])]

/-- A request to run on `rawTwoRegions` for real. -/
def reqTwoRegions : ExecuteRequest :=
  { Config := rawTwoRegions, Context := ctxRelease, DryRun := false }

/-- A request to run on `rawTwoRegions` with the host's dry-run flag set. -/
def reqTwoRegionsDry : ExecuteRequest :=
  { Config := rawTwoRegions, Context := ctxRelease, DryRun := true }

/-- The validator's report as the spec words it: six independent rules, each
contributing at most one issue, concatenated in rule order. -/
def specIssues (cfg : Config) : List ValidationError :=
  (if cfg.Project = "" then
      [{ Field := "project", Message := "GCP project ID is required" }] else [])
  ++ (if cfg.Image = "" then
      [{ Field := "image", Message := "image name is required" }] else [])
  ++ (if cfg.SourceImage = "" then
      [{ Field := "source_image", Message := "source image is required" }] else [])
  ++ (if cfg.ArtifactRegistry = true ∧ cfg.Repository = "" then
      [{ Field := "repository",
         Message := "repository name required for Artifact Registry" }] else [])
  ++ (if cfg.AuthMethod ≠ "" ∧ cfg.AuthMethod ≠ "gcloud" ∧ cfg.AuthMethod ≠ "service_account"
      then [{ Field := "auth.method",
              Message := "auth method must be 'gcloud' or 'service_account'" }] else [])
  ++ (if cfg.AuthMethod = "service_account" ∧ cfg.KeyFile = "" ∧ cfg.KeyJSON = "" then
      [{ Field := "auth", Message := "service account requires key_file or key_json" }]
      else [])

/-- A world in which `docker tag` of the first target of `reqTwoRegions` fails,
printing what Docker prints when the source image is missing. -/
def tagFailsWorld : World :=
  failingWorld (tagCmd "app:build" "us-central1-docker.pkg.dev/p/r/app:1.0.0")
    "Error response from daemon: No such image: app:build\n"

/-- A world in which `docker push` of the second target of `reqTwoRegions`
fails. -/
def pushFailsWorld : World :=
  failingWorld (pushCmd "us-central1-docker.pkg.dev/p/r/app:latest")
    "denied: Permission denied\n"

/-- A world in which `gcloud auth configure-docker` fails for the second
region of `reqTwoRegions`. -/
def authFailsWorld : World :=
  failingWorld
    ⟨"gcloud", ["auth", "configure-docker", "europe-west1-docker.pkg.dev", "--quiet"], none,
      .CombinedOutput⟩
    "ERROR: (gcloud.auth.configure-docker) You do not currently have an active account\n"

/-- The artifact-registry client of the test suite. -/
def arClient : GCRClient :=
  NewGCRClient
    { Project := "my-project", Region := "us-central1", Repository := "my-repo",
      ArtifactRegistry := true }

/-- A legacy client of the test suite, for region `us`. -/
def legacyClient : GCRClient :=
  NewGCRClient
    { Project := "my-project", Region := "us", Repository := "", ArtifactRegistry := false }

/-! ## The SDK's configuration getters, from the spec -/

/-- Modelled from the spec: the last two steps of the SDK's
`ConfigParser.GetString`, whose code is not in this repository: "named
environment variable, then literal default".  `getenv` is `os.Getenv`, which
is empty for a variable that is not set; an empty `envVar` names no
variable. -/
def sdkEnvOrDefault (getenv : String → String) (envVar defaultVal : String) : String :=
  if envVar ≠ "" ∧ getenv envVar ≠ "" then getenv envVar else defaultVal

/-- Modelled from the spec: the SDK's `ConfigParser.GetString`, whose code is
not in this repository.  "Lookup order per scalar field: explicit key in raw,
then named environment variable, then literal default"; "absent or
wrong-typed fields silently fall back to defaults", and a field "defaults ...
when absent/empty".  The key is looked up in the parser's own map. -/
def sdkGetString (getenv : String → String) (raw : RawMap)
    (key envVar defaultVal : String) : String :=
  match raw.get key with
  | some (.str v) => if v ≠ "" then v else sdkEnvOrDefault getenv envVar defaultVal
  | _ => sdkEnvOrDefault getenv envVar defaultVal

/-- Modelled from the spec: the SDK's `ConfigParser.GetBool`, whose code is
not in this repository: the boolean under the key in the parser's own map,
and the default when the field is absent or wrong-typed. -/
def sdkGetBool (raw : RawMap) (key : String) (defaultVal : Bool) : Bool :=
  match raw.get key with
  | some (.bool v) => v
  | _ => defaultVal

/-- Modelled from the spec: the SDK's `ConfigParser.GetStringSlice`, whose
code is not in this repository: the string list under the key in the parser's
own map, and the default when the field is absent or wrong-typed. -/
def sdkGetStringSlice (raw : RawMap) (key : String) (defaultVal : List String) :
    List String :=
  match raw.get key with
  | some (.strs v) => v
  | _ => defaultVal

/-- Modelled from the spec: the SDK's `helpers.ConfigParser` in a process
whose environment is `getenv`. -/
def sdkParser (getenv : String → String) : ConfigParser :=
  { GetString := sdkGetString getenv
    GetBool := sdkGetBool
    GetStringSlice := sdkGetStringSlice }

/-- An environment with no variable set. -/
def emptyEnv : String → String := fun _ => ""

/-- An environment in which `GOOGLE_APPLICATION_CREDENTIALS` names a key file
and `GCP_SERVICE_ACCOUNT_JSON` holds a key. -/
def envWithCredentials : String → String := fun name =>
  if name = "GOOGLE_APPLICATION_CREDENTIALS" then "/secrets/key.json"
  else if name = "GCP_SERVICE_ACCOUNT_JSON" then "key-json"
  else ""

/-- A raw configuration with no `auth` section. -/
def rawNoAuth : RawMap :=
  [("project", .str "my-project"), ("image", .str "my-app"),
   ("source_image", .str "myapp:latest"), ("repository", .str "my-repo")]

/-- The raw configuration "service account without key" of the test suite:
an `auth` section that names the method and gives no key. -/
def rawServiceAccount : RawMap :=
  [("project", .str "my-project"), ("image", .str "my-app"),
   ("source_image", .str "myapp:latest"), ("repository", .str "my-repo"),
   ("auth", .map [("method", .str "service_account")])]

/-- The raw configuration of `TestParseConfig`, with a `multi_region` section
that holds `enabled` and `regions`. -/
def rawMultiRegionSection : RawMap :=
  [("project", .str "my-project"), ("region", .str "us-west1"),
   ("repository", .str "my-repo"), ("image", .str "my-app"),
   ("source_image", .str "myapp:v1.0.0"), ("artifact_registry", .bool true),
   ("tags", .strs ["v1.0.0", "latest"]),
   ("auth", .map [("method", .str "service_account"),
     ("key_file", .str "/path/to/key.json")]),
   ("multi_region", .map [("enabled", .bool true),
     ("regions", .strs ["us", "europe", "asia"])]),
   ("dry_run", .bool true)]

/-- The authentication-related issues of a report: those addressed to `auth`
or to `auth.method`. -/
def authRelated (e : ValidationError) : Bool :=
  decide (e.Field = "auth" ∨ e.Field = "auth.method")

/-! ## Further vocabulary and inputs -/

/-- The images passed to `DockerClient.Push` in a history, in call order. -/
def pushTargets (t : Trace) : List String :=
  (calls t).filterMap (fun e =>
    match e with
    | .call (.Push image) _ => some image
    | _ => none)

/-- A raw configuration whose only tag template is a conditional one. -/
def rawConditionalTags : RawMap :=
  [("project", .str "my-project"), ("image", .str "my-app"),
   ("source_image", .str "myapp:latest"), ("repository", .str "my-repo"),
   ("tags", .strs ["\x7b\x7bif .Prerelease\x7d\x7dpre\x7b\x7bend\x7d\x7d"])]

/-- A request to run on `rawConditionalTags` for real. -/
def reqConditionalTags : ExecuteRequest :=
  { Config := rawConditionalTags, Context := ctxRelease, DryRun := false }

/-- A request with no `tags` key, so with the default template, in a release
context whose version is empty. -/
def reqEmptyVersion : ExecuteRequest :=
  { Config := rawNoAuth
    Context := { Version := "", PreviousVersion := "", TagName := "", ReleaseType := "",
                 Branch := "" }
    DryRun := false }

/-- A world in which `gcloud auth configure-docker` fails for the default
region `us-central1`. -/
def defaultAuthFailsWorld : World :=
  failingWorld
    ⟨"gcloud", ["auth", "configure-docker", "us-central1-docker.pkg.dev", "--quiet"], none,
      .CombinedOutput⟩
    "ERROR: (gcloud.auth.configure-docker) You do not currently have an active account\n"

/-- The result `res` of a collaborator call made at history `t` came out of a
tool: the call started at least one process, and an error it returned wraps
the error of a process it started. -/
def FromTool (w : World) (t : Trace) (res : Option GoError × Trace) : Prop :=
  (∃ cmd rest, res.2 = t ++ Event.exec cmd :: rest) ∧
  (∀ err, res.1 = some err →
    ∃ t0 cmd e, (w t0 cmd).err = some e ∧ err.Unwrap = some e ∧ Event.exec cmd ∈ res.2)

/-! ## Lemmas on the collaborators -/

theorem calls_append (a b : Trace) : calls (a ++ b) = calls a ++ calls b := by
  simp [calls]

theorem execs_append (a b : Trace) : execs (a ++ b) = execs a ++ execs b := by
  simp [execs]

theorem observe_eq (c : Call) (m : Trace → Option GoError × Trace) (t : Trace) :
    observe c m t = ((m t).1, (m t).2 ++ [Event.call c (m t).1]) := rfl

theorem Tag_eq (w : World) (source target : String) (t : Trace) :
    DockerClient.Tag w source target t =
      ((w t (tagCmd source target)).err.map
        (fun e => dockerErr "tag" e (w t (tagCmd source target)).output),
       t ++ [Event.exec (tagCmd source target)]) := by
  unfold DockerClient.Tag runCmd tagCmd dockerErr
  cases h : (w t ⟨"docker", ["tag", source, target], none, .CombinedOutput⟩).err <;>
    simp [h, String.append_assoc]

theorem Push_eq (w : World) (image : String) (t : Trace) :
    DockerClient.Push w image t =
      ((w t (pushCmd image)).err.map
        (fun e => dockerErr "push" e (w t (pushCmd image)).output),
       t ++ [Event.exec (pushCmd image)]) := by
  unfold DockerClient.Push runCmd pushCmd dockerErr
  cases h : (w t ⟨"docker", ["push", image], none, .CombinedOutput⟩).err <;>
    simp [h, String.append_assoc]

theorem calls_authenticateGcloud (c : GCRClient) (w : World) (region : String) (t : Trace) :
    calls (c.authenticateGcloud w region t).2 = calls t := by
  unfold GCRClient.authenticateGcloud runCmd
  simp only []
  split <;> simp [calls_append, calls, Event.isCall]

theorem calls_dockerLogin (w : World) (host key : String) (t : Trace) :
    calls (GCRClient.dockerLogin w host key t).2 = calls t := by
  unfold GCRClient.dockerLogin runCmd
  simp only []
  split <;> simp [calls_append, calls, Event.isCall]

theorem calls_authenticateServiceAccount (c : GCRClient) (w : World) (region : String)
    (auth : AuthConfig) (t : Trace) :
    calls (c.authenticateServiceAccount w region auth t).2 = calls t := by
  unfold GCRClient.authenticateServiceAccount runCmd
  simp only []
  split
  · split
    · simp [calls_append, calls, Event.isCall]
    · rw [calls_dockerLogin]; simp [calls_append, calls, Event.isCall]
  · split
    · rw [calls_dockerLogin]
    · rfl

theorem calls_Authenticate (c : GCRClient) (w : World) (region : String)
    (auth : Option AuthConfig) (t : Trace) :
    calls (c.Authenticate w region auth t).2 = calls t := by
  unfold GCRClient.Authenticate
  simp only []
  split
  · exact calls_authenticateGcloud ..
  · split
    · exact calls_authenticateServiceAccount ..
    · rfl

theorem authLoop_cases (w : World) (client : GCRClient) (cfg : Config) :
    ∀ (regions : List String) (t : Trace),
      ((authLoop w client cfg regions t).1 = none ∧
        calls (authLoop w client cfg regions t).2 = calls t ++ regions.map (authOk cfg)) ∨
      (∃ done r rest derr t0, regions = done ++ r :: rest ∧
        authLoop w client cfg regions t =
          (some (.wrap ("failed to authenticate with " ++ r ++ ": " ++ derr.Error) derr),
            t0 ++ [Event.call (.Authenticate r (some (authCfgOf cfg))) (some derr)]) ∧
        calls t0 = calls t ++ done.map (authOk cfg)) := by
  intro regions
  induction regions with
  | nil => intro t; left; simp [authLoop]
  | cons region rest ih =>
    intro t
    unfold authLoop
    simp only [observe_eq]
    have hfr := calls_Authenticate client w region (some (authCfgOf cfg)) t
    simp only [authCfgOf] at hfr
    cases h : (client.Authenticate w region
        (some { Method := cfg.AuthMethod, KeyFile := cfg.KeyFile, KeyJSON := cfg.KeyJSON }) t).1 with
    | some derr =>
      right
      refine ⟨[], region, rest, derr, _, rfl, rfl, ?_⟩
      simpa using hfr
    | none =>
      simp only []
      rcases ih ((client.Authenticate w region
          (some { Method := cfg.AuthMethod, KeyFile := cfg.KeyFile, KeyJSON := cfg.KeyJSON }) t).2
          ++ [Event.call (.Authenticate region (some
            { Method := cfg.AuthMethod, KeyFile := cfg.KeyFile, KeyJSON := cfg.KeyJSON })) none])
        with ⟨h1, h2⟩ | ⟨done, r, rest2, derr, t0, h1, h2, h3⟩
      · left
        refine ⟨h1, ?_⟩
        rw [h2, calls_append, hfr]
        simp [calls, Event.isCall, authOk, authCfgOf]
      · right
        refine ⟨region :: done, r, rest2, derr, t0, by simp [h1], h2, ?_⟩
        rw [h3, calls_append, hfr]
        simp [calls, Event.isCall, authOk, authCfgOf]

theorem pushTagsLoop_dry (w : World) (cfg : Config) (rc : GCRClient)
    (hd : cfg.DryRun = true) :
    ∀ (tags pushed : List String) (t : Trace), ∃ out,
      pushTagsLoop w cfg rc tags pushed t =
        (.ok (pushed ++ (tags.filter (fun tag => decide (tag ≠ ""))).map
          (fun tag => rc.GetImagePath cfg.Image ++ ":" ++ tag)), t ++ out) ∧
      calls out = [] ∧ execs out = [] := by
  intro tags
  induction tags with
  | nil => intro pushed t; exact ⟨[], by simp [pushTagsLoop], rfl, rfl⟩
  | cons tag rest ih =>
    intro pushed t
    unfold pushTagsLoop
    by_cases htag : tag = ""
    · simp only [htag, if_true]
      obtain ⟨out, h1, h2, h3⟩ := ih pushed t
      exact ⟨out, by simpa using h1, h2, h3⟩
    · simp only [htag, if_false, hd, if_true]
      generalize hx : rc.GetImagePath cfg.Image ++ ":" ++ tag = x
      obtain ⟨out, h1, h2, h3⟩ := ih (pushed ++ [x])
        (t ++ [Event.print ("[dry-run] Would tag " ++ cfg.SourceImage ++ " as " ++ x ++ "\n")]
          ++ [Event.print ("[dry-run] Would push " ++ x ++ "\n")])
      refine ⟨Event.print ("[dry-run] Would tag " ++ cfg.SourceImage ++ " as " ++ x ++ "\n")
        :: Event.print ("[dry-run] Would push " ++ x ++ "\n") :: out, ?_, ?_, ?_⟩
      · rw [h1]; simp [htag, hx]
      · simpa [calls, Event.isCall] using h2
      · simpa [execs, Event.isExec] using h3

theorem pushTagsLoop_cases (w : World) (cfg : Config) (rc : GCRClient)
    (hd : cfg.DryRun = false) :
    ∀ (tags pushed : List String) (t : Trace),
      (∃ t1, pushTagsLoop w cfg rc tags pushed t =
          (.ok (pushed ++ (tags.filter (fun tag => decide (tag ≠ ""))).map
            (fun tag => rc.GetImagePath cfg.Image ++ ":" ++ tag)), t1) ∧
        calls t1 = calls t ++ ((tags.filter (fun tag => decide (tag ≠ ""))).map
            (fun tag => rc.GetImagePath cfg.Image ++ ":" ++ tag)).flatMap (pairOk cfg)) ∨
      (∃ done x rest err fails t1,
        (tags.filter (fun tag => decide (tag ≠ ""))).map
            (fun tag => rc.GetImagePath cfg.Image ++ ":" ++ tag) = done ++ x :: rest ∧
        pushTagsLoop w cfg rc tags pushed t = (.error err, t1) ∧
        TagPushFailure w cfg x t1 err fails ∧
        calls t1 = calls t ++ done.flatMap (pairOk cfg) ++ fails) := by
  intro tags
  induction tags with
  | nil => intro pushed t; left; exact ⟨t, by simp [pushTagsLoop], by simp⟩
  | cons tag rest ih =>
    intro pushed t
    unfold pushTagsLoop
    by_cases htag : tag = ""
    · simp only [htag, if_true]
      simpa using ih pushed t
    · simp only [htag, if_false, hd, observe_eq, Tag_eq, Push_eq]
      generalize hx : rc.GetImagePath cfg.Image ++ ":" ++ tag = x
      have hxs : (List.filter (fun tag => decide (tag ≠ "")) (tag :: rest)).map
          (fun tag => rc.GetImagePath cfg.Image ++ ":" ++ tag)
          = x :: (List.filter (fun tag => decide (tag ≠ "")) rest).map
          (fun tag => rc.GetImagePath cfg.Image ++ ":" ++ tag) := by
        simp [htag, hx]
      rw [hxs]
      generalize (List.filter (fun tag => decide (tag ≠ "")) rest).map
          (fun tag => rc.GetImagePath cfg.Image ++ ":" ++ tag) = xs at ih ⊢
      cases h1 : (w t (tagCmd cfg.SourceImage x)).err with
      | some e =>
        right
        simp only [Option.map_some']
        refine ⟨[], x, xs, _, 
          [.call (.Tag cfg.SourceImage x)
            (some (dockerErr "tag" e (w t (tagCmd cfg.SourceImage x)).output))], _, rfl, rfl,
          Or.inl ⟨t, e, h1, ?_, rfl, rfl⟩, ?_⟩
        · simp
        · simp [calls_append, calls, Event.isCall]
      | none =>
        simp only [Option.map_none']
        generalize ht1 : t ++ [Event.exec (tagCmd cfg.SourceImage x)]
            ++ [Event.call (.Tag cfg.SourceImage x) none] = t1
        have hc1 : calls t1 = calls t ++ [Event.call (.Tag cfg.SourceImage x) none] := by
          rw [← ht1]; simp [calls_append, calls, Event.isCall]
        cases h2 : (w t1 (pushCmd x)).err with
        | some e =>
          right
          simp only [Option.map_some']
          refine ⟨[], x, xs, _, 
            [.call (.Tag cfg.SourceImage x) none,
             .call (.Push x) (some (dockerErr "push" e (w t1 (pushCmd x)).output))], _, rfl, rfl,
            Or.inr ⟨t1, e, h2, ?_, rfl, rfl⟩, ?_⟩
          · simp
          · rw [calls_append, calls_append, hc1]; simp [calls, Event.isCall]
        | none =>
          simp only [Option.map_none']
          rcases ih (pushed ++ [x]) (t1 ++ [Event.exec (pushCmd x)]
              ++ [Event.call (.Push x) none] ++ [Event.print ("Pushed: " ++ x ++ "\n")])
            with ⟨t2, h3, h4⟩ | ⟨done, y, rest2, err, fails, t2, h3, h4, h5, h6⟩
          · left
            refine ⟨t2, ?_, ?_⟩
            · rw [h3]; simp
            · rw [h4]; simp [calls_append, hc1]; simp [calls, Event.isCall, pairOk]
          · right
            refine ⟨x :: done, y, rest2, err, fails, t2, ?_, h4, h5, ?_⟩
            · simp [h3]
            · rw [h6]; simp [calls_append, hc1]; simp [calls, Event.isCall, pairOk]

theorem pushRegionsLoop_cons (w : World) (cfg : Config) (tags : List String)
    (region : String) (rest pushed : List String) (t : Trace) :
    pushRegionsLoop w cfg tags (region :: rest) pushed t =
      match pushTagsLoop w cfg (regionClientOf cfg region) tags pushed t with
      | (.error err, t1) => (.error err, t1)
      | (.ok pushed1, t1) => pushRegionsLoop w cfg tags rest pushed1 t1 := rfl

theorem targetImages_cons (cfg : Config) (region : String) (rest tags : List String) :
    targetImages cfg (region :: rest) tags =
      tags.map (fun tag => (regionClientOf cfg region).GetImagePath cfg.Image ++ ":" ++ tag)
        ++ targetImages cfg rest tags := by
  simp [targetImages, targetImage]

theorem pushRegionsLoop_dry (w : World) (cfg : Config) (tags : List String)
    (hd : cfg.DryRun = true) :
    ∀ (regions pushed : List String) (t : Trace), ∃ out,
      pushRegionsLoop w cfg tags regions pushed t =
        (.ok (pushed ++ targetImages cfg regions (tags.filter (fun tag => decide (tag ≠ "")))),
          t ++ out) ∧
      calls out = [] ∧ execs out = [] := by
  intro regions
  induction regions with
  | nil => intro pushed t; exact ⟨[], by simp [pushRegionsLoop, targetImages], rfl, rfl⟩
  | cons region rest ih =>
    intro pushed t
    rw [pushRegionsLoop_cons, targetImages_cons]
    obtain ⟨out1, h1, h2, h3⟩ := pushTagsLoop_dry w cfg (regionClientOf cfg region) hd tags pushed t
    generalize (tags.filter (fun tag => decide (tag ≠ ""))).map
      (fun tag => (regionClientOf cfg region).GetImagePath cfg.Image ++ ":" ++ tag) = xs at h1 ⊢
    simp only [h1]
    obtain ⟨out2, k1, k2, k3⟩ := ih (pushed ++ xs) (t ++ out1)
    refine ⟨out1 ++ out2, ?_, ?_, ?_⟩
    · rw [k1, List.append_assoc, List.append_assoc]
    · rw [calls_append, h2, k2]; rfl
    · rw [execs_append, h3, k3]; rfl

theorem pushRegionsLoop_cases (w : World) (cfg : Config) (tags : List String)
    (hd : cfg.DryRun = false) :
    ∀ (regions pushed : List String) (t : Trace),
      (∃ t1, pushRegionsLoop w cfg tags regions pushed t =
          (.ok (pushed ++ targetImages cfg regions (tags.filter (fun tag => decide (tag ≠ "")))),
            t1) ∧
        calls t1 = calls t ++
          (targetImages cfg regions (tags.filter (fun tag => decide (tag ≠ "")))).flatMap
            (pairOk cfg)) ∨
      (∃ done x rest err fails t1,
        targetImages cfg regions (tags.filter (fun tag => decide (tag ≠ "")))
          = done ++ x :: rest ∧
        pushRegionsLoop w cfg tags regions pushed t = (.error err, t1) ∧
        TagPushFailure w cfg x t1 err fails ∧
        calls t1 = calls t ++ done.flatMap (pairOk cfg) ++ fails) := by
  intro regions
  induction regions with
  | nil =>
    intro pushed t; left
    exact ⟨t, by simp [pushRegionsLoop, targetImages], by simp [targetImages]⟩
  | cons region rest ih =>
    intro pushed t
    rw [pushRegionsLoop_cons, targetImages_cons]
    rcases pushTagsLoop_cases w cfg (regionClientOf cfg region) hd tags pushed t with
      ⟨t1, h1, h2⟩ | ⟨done, x, rest1, err, fails, t1, h1, h2, h3, h4⟩
    · generalize (tags.filter (fun tag => decide (tag ≠ ""))).map
        (fun tag => (regionClientOf cfg region).GetImagePath cfg.Image ++ ":" ++ tag) = xs
        at h1 h2 ⊢
      generalize targetImages cfg rest (tags.filter (fun tag => decide (tag ≠ ""))) = ys
        at ih ⊢
      simp only [h1]
      rcases ih (pushed ++ xs) t1 with
        ⟨t2, k1, k2⟩ | ⟨done, x, rest2, err, fails, t2, k1, k2, k3, k4⟩
      · left
        refine ⟨t2, by rw [k1, List.append_assoc], ?_⟩
        rw [k2, h2, List.flatMap_append, List.append_assoc]
      · right
        refine ⟨xs ++ done, x, rest2, err, fails, t2, by rw [k1, List.append_assoc], k2, k3, ?_⟩
        rw [k4, h2, List.flatMap_append]
        simp only [List.append_assoc]
    · right
      generalize (tags.filter (fun tag => decide (tag ≠ ""))).map
        (fun tag => (regionClientOf cfg region).GetImagePath cfg.Image ++ ":" ++ tag) = xs
        at h1 ⊢
      generalize targetImages cfg rest (tags.filter (fun tag => decide (tag ≠ ""))) = ys
      simp only [h2]
      exact ⟨done, x, rest1 ++ ys, err, fails, t1, by rw [h1]; simp, rfl, h3, h4⟩

theorem processTagsLoop_eq (ctx : ReleaseContext) :
    ∀ (tags processed : List String),
      processTagsLoop ctx tags processed =
        processed ++ (tags.map (fun tag => processTemplate tag ctx)).filter
          (fun result => decide (result ≠ "")) := by
  intro tags
  induction tags with
  | nil => intro processed; simp [processTagsLoop]
  | cons tag rest ih =>
    intro processed
    unfold processTagsLoop
    by_cases h : processTemplate tag ctx = ""
    · simp [h, ih]
    · simp [h, ih]

theorem processTags_eq_filter (tags : List String) (ctx : ReleaseContext) :
    processTags tags ctx =
      (tags.map (fun tag => processTemplate tag ctx)).filter
        (fun result => decide (result ≠ "")) := by
  simp [processTags, processTagsLoop_eq]

theorem processTags_filter_self (tags : List String) (ctx : ReleaseContext) :
    (processTags tags ctx).filter (fun tag => decide (tag ≠ "")) = processTags tags ctx := by
  rw [processTags_eq_filter, List.filter_filter]
  congr 1
  funext x
  simp

theorem executeCfg_dry (w : World) (cfg : Config) (ctx : ReleaseContext)
    (hd : cfg.DryRun = true) :
    ∃ out, executeCfg w cfg ctx =
        ((some (successResponse cfg (processTags cfg.Tags ctx)
          (targetImages cfg (targetRegions cfg) (processTags cfg.Tags ctx))), none), out) ∧
      calls out = [] ∧ execs out = [] := by
  obtain ⟨out, h1, h2, h3⟩ := pushRegionsLoop_dry w cfg (processTags cfg.Tags ctx) hd
    (targetRegions cfg) [] []
  rw [processTags_filter_self] at h1
  refine ⟨out, ?_, h2, h3⟩
  unfold executeCfg
  simp only [hd, Bool.true_eq_false, if_false, h1]
  simp [successResponse]

theorem executeCfg_cases (w : World) (cfg : Config) (ctx : ReleaseContext)
    (hd : cfg.DryRun = false) :
    (∃ t1, executeCfg w cfg ctx =
        ((some (successResponse cfg (processTags cfg.Tags ctx)
          (targetImages cfg (targetRegions cfg) (processTags cfg.Tags ctx))), none), t1) ∧
      calls t1 = (targetRegions cfg).map (authOk cfg) ++
        (targetImages cfg (targetRegions cfg) (processTags cfg.Tags ctx)).flatMap
          (pairOk cfg)) ∨
    (∃ done r rest derr t0, targetRegions cfg = done ++ r :: rest ∧
      executeCfg w cfg ctx =
        ((none, some (.wrap ("failed to authenticate with " ++ r ++ ": " ++ derr.Error) derr)),
          t0 ++ [Event.call (.Authenticate r (some (authCfgOf cfg))) (some derr)]) ∧
      calls t0 = done.map (authOk cfg)) ∨
    (∃ done x rest err fails t1,
      targetImages cfg (targetRegions cfg) (processTags cfg.Tags ctx) = done ++ x :: rest ∧
      executeCfg w cfg ctx = ((none, some err), t1) ∧
      TagPushFailure w cfg x t1 err fails ∧
      calls t1 = (targetRegions cfg).map (authOk cfg) ++ done.flatMap (pairOk cfg) ++ fails) := by
  unfold executeCfg
  simp only [hd, if_true]
  rcases authLoop_cases w (NewGCRClient
      { Project := cfg.Project, Region := cfg.Region, Repository := cfg.Repository,
        ArtifactRegistry := cfg.ArtifactRegistry }) cfg (targetRegions cfg) [] with
    ⟨a1, a2⟩ | ⟨done, r, rest, derr, t0, a1, a2, a3⟩
  · generalize authLoop w (NewGCRClient
      { Project := cfg.Project, Region := cfg.Region, Repository := cfg.Repository,
        ArtifactRegistry := cfg.ArtifactRegistry }) cfg (targetRegions cfg) [] = res at a1 a2 ⊢
    obtain ⟨e, ta⟩ := res
    simp only at a1 a2
    subst a1
    simp only []
    have hca : calls ta = (targetRegions cfg).map (authOk cfg) := by
      rw [a2]; simp [calls]
    rcases pushRegionsLoop_cases w cfg (processTags cfg.Tags ctx) hd (targetRegions cfg) [] ta
      with ⟨t1, h1, h2⟩ | ⟨done, x, rest, err, fails, t1, h1, h2, h3, h4⟩
    · left
      rw [processTags_filter_self] at h1 h2
      refine ⟨t1, ?_, ?_⟩
      · simp only [h1]; simp [successResponse]
      · rw [h2, hca]
    · right; right
      rw [processTags_filter_self] at h1
      refine ⟨done, x, rest, err, fails, t1, h1, ?_, h3, ?_⟩
      · simp only [h2]
      · rw [h4, hca]
  · right; left
    refine ⟨done, r, rest, derr, t0, a1, ?_, ?_⟩
    · simp only [a2]
    · rw [a3]; simp [calls]

theorem split_at_failure {A pre post : List Event} {f e : Event}
    (hA : ∀ a ∈ A, a.ok = true) (he : e.ok = false)
    (h : A ++ [f] = pre ++ e :: post) : pre = A ∧ e = f ∧ post = [] := by
  induction A generalizing pre with
  | nil =>
    cases pre with
    | nil => simp at h; exact ⟨rfl, h.1.symm, h.2⟩
    | cons b pre => simp at h
  | cons a A ih =>
    cases pre with
    | nil =>
      simp at h
      have := hA a (by simp)
      rw [h.1] at this
      rw [this] at he
      cases he
    | cons b pre =>
      simp at h
      obtain ⟨h1, h2⟩ := h
      have := ih (fun a ha => hA a (by simp [ha])) (by simpa using h2)
      exact ⟨by rw [h1, this.1], this.2.1, this.2.2⟩

theorem no_failure_of_all_ok {A pre post : List Event} {e : Event}
    (hA : ∀ a ∈ A, a.ok = true) (he : e.ok = false) (h : A = pre ++ e :: post) : False := by
  have := hA e (by rw [h]; simp)
  rw [this] at he
  cases he

theorem authOk_ok (cfg : Config) (regions : List String) :
    ∀ a ∈ regions.map (authOk cfg), a.ok = true := by
  intro a ha
  simp only [List.mem_map] at ha
  obtain ⟨r, _, rfl⟩ := ha
  rfl

theorem pairOk_ok (cfg : Config) (xs : List String) :
    ∀ a ∈ xs.flatMap (pairOk cfg), a.ok = true := by
  intro a ha
  simp only [List.mem_flatMap, pairOk, List.mem_cons, List.mem_singleton] at ha
  obtain ⟨x, _, h⟩ := ha
  simp at h
  rcases h with rfl | rfl <;> rfl

/-! ## Lemmas on the `strings` functions -/

theorem isPrefixOf_true_iff :
    ∀ (a b : List Char), a.isPrefixOf b = true ↔ ∃ r, b = a ++ r
  | [], b => by simp [List.isPrefixOf]
  | _ :: _, [] => by simp [List.isPrefixOf]
  | x :: a, y :: b => by
    simp only [List.isPrefixOf, Bool.and_eq_true, beq_iff_eq, isPrefixOf_true_iff a b,
      List.cons_append, List.cons.injEq]
    constructor
    · rintro ⟨rfl, r, rfl⟩; exact ⟨r, rfl, rfl⟩
    · rintro ⟨r, rfl, rfl⟩; exact ⟨rfl, r, rfl⟩

theorem containsGo_true_iff (sub : List Char) :
    ∀ (s : List Char), containsGo sub s = true ↔ sub <:+: s := by
  intro s
  induction s with
  | nil =>
    simp only [containsGo, isPrefixOf_true_iff, List.infix_nil]
    constructor
    · rintro ⟨r, h⟩
      cases sub with
      | nil => rfl
      | cons _ _ => simp at h
    · rintro rfl; exact ⟨[], rfl⟩
  | cons c s ih =>
    simp only [containsGo, Bool.or_eq_true, isPrefixOf_true_iff, ih, List.infix_cons_iff]
    constructor
    · rintro (⟨r, h⟩ | h)
      · exact Or.inl ⟨r, h.symm⟩
      · exact Or.inr h
    · rintro (⟨r, h⟩ | h)
      · exact Or.inl ⟨r, h.symm⟩
      · exact Or.inr h

theorem Contains_true_iff (s substr : String) :
    Contains s substr = true ↔ substr.data <:+: s.data :=
  containsGo_true_iff substr.data s.data

theorem Contains_false_iff (s substr : String) :
    Contains s substr = false ↔ ¬ substr.data <:+: s.data := by
  rw [← Contains_true_iff]; simp

theorem replaceGo_of_not_contains (old new : List Char) :
    ∀ (s : List Char), containsGo old s = false → replaceGo old new 0 s = s := by
  intro s
  induction s with
  | nil => intro _; rfl
  | cons c s ih =>
    intro h
    simp only [containsGo, Bool.or_eq_false_iff] at h
    simp [replaceGo, h.1, ih h.2]

theorem replaceGo_skip (old new : List Char) :
    ∀ (a r : List Char), replaceGo old new a.length (a ++ r) = replaceGo old new 0 r := by
  intro a
  induction a with
  | nil => intro r; rfl
  | cons c a ih =>
    intro r
    simp only [List.length_cons, List.cons_append, replaceGo]
    exact ih r

theorem replaceGo_match (c : Char) (o new r : List Char) :
    replaceGo (c :: o) new 0 (c :: o ++ r) = new ++ replaceGo (c :: o) new 0 r := by
  have hp : (c :: o).isPrefixOf (c :: (o ++ r)) = true :=
    (isPrefixOf_true_iff _ _).2 ⟨r, rfl⟩
  show replaceGo (c :: o) new 0 (c :: (o ++ r)) = _
  rw [replaceGo, if_pos hp]
  show new ++ replaceGo (c :: o) new o.length (o ++ r) = _
  rw [replaceGo_skip]

theorem ReplaceAll_of_not_contains (s old new : String) (h : Contains s old = false) :
    ReplaceAll s old new = s := by
  unfold ReplaceAll
  have hne : old.data ≠ [] := by
    intro h0
    have : Contains s old = true := by
      rw [Contains_true_iff, h0]; exact List.nil_infix
    rw [this] at h; cases h
  simp only [hne, if_false]
  rw [replaceGo_of_not_contains _ _ _ h]

theorem ReplaceAll_self (s new : String) (h : s ≠ "") : ReplaceAll s s new = new := by
  unfold ReplaceAll
  have hne : s.data ≠ [] := by
    intro h0; apply h; exact String.ext h0
  simp only [hne, if_false]
  obtain ⟨l⟩ := s
  cases l with
  | nil => exact absurd rfl hne
  | cons c o =>
    have := replaceGo_match c o new.data []
    simp only [List.append_nil] at this
    simp only [this]
    simp [replaceGo]

theorem replaceGo_slash :
    ∀ (s : List Char),
      replaceGo ['/'] ['-'] 0 s = s.map (fun c => if c = '/' then '-' else c) := by
  intro s
  induction s with
  | nil => rfl
  | cons c s ih =>
    by_cases hc : c = '/'
    · subst hc
      simp [replaceGo, List.isPrefixOf, ih]
    · have hc2 : ('/' == c) = false := by
        simp only [beq_eq_false_iff_ne, ne_eq]; exact fun h => hc h.symm
      simp [replaceGo, List.isPrefixOf, hc, hc2, ih]

theorem ReplaceAll_slash (b : String) :
    ReplaceAll b "/" "-" = ⟨b.data.map (fun c => if c = '/' then '-' else c)⟩ := by
  unfold ReplaceAll
  have h1 : ("/" : String).data = ['/'] := rfl
  have h2 : ("-" : String).data = ['-'] := rfl
  simp only [h1, h2, List.cons_ne_nil, if_false, replaceGo_slash]

/-! ## Tag-template resolution -/

/-- C7: `processTags` is the order-preserving filter of the per-template
results: it returns the list of `processTemplate` results, in input order,
with the empty strings deleted; so the output holds no empty string, is at
most as long as the input, and is a subsequence of the per-template results. -/
theorem processTags_is_filter_of_results (tags : List String) (ctx : ReleaseContext) :
    processTags tags ctx =
        (tags.map (fun tag => processTemplate tag ctx)).filter
          (fun result => decide (result ≠ "")) ∧
      "" ∉ processTags tags ctx ∧
      (processTags tags ctx).length ≤ tags.length ∧
      List.Sublist (processTags tags ctx) (tags.map (fun tag => processTemplate tag ctx)) := by
  rw [processTags_eq_filter]
  refine ⟨rfl, ?_, ?_, List.filter_sublist _⟩
  · simp [List.mem_filter]
  · calc ((tags.map (fun tag => processTemplate tag ctx)).filter
            (fun result => decide (result ≠ ""))).length
        ≤ (tags.map (fun tag => processTemplate tag ctx)).length := List.length_filter_le _ _
      _ = tags.length := List.length_map _ _

/-- C8, as stated, fails: with the non-empty version `{{.TagName}}` and the tag
name `v1`, the template `{{.Version}}` resolves to `v1`, not to the version,
because the inserted version is scanned again by the later substitutions. -/
theorem processTemplate_version_rescanned :
    ctxNestedVersion.Version ≠ "" ∧
      processTemplate "\x7b\x7b.Version\x7d\x7d" ctxNestedVersion = "v1" ∧
      processTemplate "\x7b\x7b.Version\x7d\x7d" ctxNestedVersion ≠ ctxNestedVersion.Version ∧
      processTags ["\x7b\x7b.Version\x7d\x7d"] ctxNestedVersion
        ≠ [ctxNestedVersion.Version] := by
  decide

/-- C8, amended: for every release context whose version `v` is non-empty and
contains none of the placeholders substituted after it (`{{.PreviousVersion}}`,
`{{.TagName}}`, `{{.ReleaseType}}`, and `{{.Branch}}` unless the branch is
empty), the template `{{.Version}}` resolves to exactly `v`, and the
one-template list resolves to `[v]`. -/
theorem processTemplate_version (ctx : ReleaseContext) (hv : ctx.Version ≠ "")
    (h1 : ¬ ("\x7b\x7b.PreviousVersion\x7d\x7d" : String).data <:+: ctx.Version.data)
    (h2 : ¬ ("\x7b\x7b.TagName\x7d\x7d" : String).data <:+: ctx.Version.data)
    (h3 : ¬ ("\x7b\x7b.ReleaseType\x7d\x7d" : String).data <:+: ctx.Version.data)
    (h4 : ctx.Branch = "" ∨
      ¬ ("\x7b\x7b.Branch\x7d\x7d" : String).data <:+: ctx.Version.data) :
    processTemplate "\x7b\x7b.Version\x7d\x7d" ctx = ctx.Version ∧
      processTags ["\x7b\x7b.Version\x7d\x7d"] ctx = [ctx.Version] := by
  have key : processTemplate "\x7b\x7b.Version\x7d\x7d" ctx = ctx.Version := by
    unfold processTemplate
    have h0 : Contains "\x7b\x7b.Version\x7d\x7d" "\x7b\x7bif" = false := by decide
    simp only [h0, Bool.false_eq_true, if_false]
    rw [ReplaceAll_self _ _ (by decide),
      ReplaceAll_of_not_contains _ _ _ ((Contains_false_iff _ _).2 h1),
      ReplaceAll_of_not_contains _ _ _ ((Contains_false_iff _ _).2 h2),
      ReplaceAll_of_not_contains _ _ _ ((Contains_false_iff _ _).2 h3)]
    by_cases hb : ctx.Branch = ""
    · simp [hb]
    · simp only [ne_eq, hb, not_false_eq_true, if_true]
      rcases h4 with h4 | h4
      · exact absurd h4 hb
      · exact ReplaceAll_of_not_contains _ _ _ ((Contains_false_iff _ _).2 h4)
  refine ⟨key, ?_⟩
  rw [processTags_eq_filter]
  simp [key, hv]

/-- C8, amended, at version `1.2.3` (the context of the test suite). -/
theorem processTemplate_version_witness :
    processTemplate "\x7b\x7b.Version\x7d\x7d"
        { Version := "1.2.3", PreviousVersion := "1.2.2", TagName := "v1.2.3",
          ReleaseType := "minor", Branch := "feature/new-feature" } = "1.2.3" ∧
      processTags ["\x7b\x7b.Version\x7d\x7d"]
        { Version := "1.2.3", PreviousVersion := "1.2.2", TagName := "v1.2.3",
          ReleaseType := "minor", Branch := "feature/new-feature" } = ["1.2.3"] :=
  processTemplate_version
    { Version := "1.2.3", PreviousVersion := "1.2.2", TagName := "v1.2.3",
      ReleaseType := "minor", Branch := "feature/new-feature" }
    (by decide)
    (by rw [← Contains_true_iff]; decide)
    (by rw [← Contains_true_iff]; decide)
    (by rw [← Contains_true_iff]; decide)
    (Or.inr (by rw [← Contains_true_iff]; decide))

/-- C9: a template that contains `{{if` resolves to the empty string whatever
else it holds; `processTags` gives it no output entry, wherever it stands in
the list; and a list made only of such templates resolves to the empty list. -/
theorem conditional_template_dropped (tmpl : String) (ctx : ReleaseContext)
    (h : ("\x7b\x7bif" : String).data <:+: tmpl.data) :
    processTemplate tmpl ctx = "" ∧
      (∀ before after : List String,
        processTags (before ++ tmpl :: after) ctx = processTags (before ++ after) ctx) ∧
      (∀ tmpls : List String,
        (∀ t ∈ tmpls, ("\x7b\x7bif" : String).data <:+: t.data) →
          processTags tmpls ctx = []) := by
  have key : ∀ t : String, ("\x7b\x7bif" : String).data <:+: t.data →
      processTemplate t ctx = "" := by
    intro t ht
    unfold processTemplate
    simp [(Contains_true_iff _ _).2 ht]
  refine ⟨key tmpl h, ?_, ?_⟩
  · intro before after
    simp [processTags_eq_filter, key tmpl h]
  · intro tmpls hall
    rw [processTags_eq_filter, List.filter_eq_nil_iff]
    intro r hr
    simp only [List.mem_map] at hr
    obtain ⟨t, ht, rfl⟩ := hr
    simp [key t (hall t ht)]

/-- C9 at the conditional template of the test suite. -/
theorem conditional_template_dropped_witness :
    processTemplate "\x7b\x7bif not .Prerelease\x7d\x7dlatest\x7b\x7bend\x7d\x7d"
        { Version := "1.2.3", PreviousVersion := "1.2.2", TagName := "v1.2.3",
          ReleaseType := "minor", Branch := "feature/new-feature" } = "" :=
  (conditional_template_dropped
    "\x7b\x7bif not .Prerelease\x7d\x7dlatest\x7b\x7bend\x7d\x7d"
    { Version := "1.2.3", PreviousVersion := "1.2.2", TagName := "v1.2.3",
      ReleaseType := "minor", Branch := "feature/new-feature" }
    (by rw [← Contains_true_iff]; decide)).1

/-- C10: for a non-empty branch `b`, the template `{{.Branch}}` resolves to `b`
with every `/` replaced by `-`; the result holds no `/`, has the length of
`b` (in characters and in UTF-8 bytes), is not empty, and is the one tag the
one-template list resolves to. -/
theorem processTemplate_branch (ctx : ReleaseContext) (hb : ctx.Branch ≠ "") :
    processTemplate "\x7b\x7b.Branch\x7d\x7d" ctx =
        ⟨ctx.Branch.data.map (fun c => if c = '/' then '-' else c)⟩ ∧
      '/' ∉ (processTemplate "\x7b\x7b.Branch\x7d\x7d" ctx).data ∧
      (processTemplate "\x7b\x7b.Branch\x7d\x7d" ctx).length = ctx.Branch.length ∧
      (processTemplate "\x7b\x7b.Branch\x7d\x7d" ctx).utf8ByteSize
        = ctx.Branch.utf8ByteSize ∧
      processTemplate "\x7b\x7b.Branch\x7d\x7d" ctx ≠ "" ∧
      processTags ["\x7b\x7b.Branch\x7d\x7d"] ctx
        = [processTemplate "\x7b\x7b.Branch\x7d\x7d" ctx] := by
  have key : processTemplate "\x7b\x7b.Branch\x7d\x7d" ctx =
      ⟨ctx.Branch.data.map (fun c => if c = '/' then '-' else c)⟩ := by
    unfold processTemplate
    have h0 : Contains "\x7b\x7b.Branch\x7d\x7d" "\x7b\x7bif" = false := by decide
    simp only [h0, Bool.false_eq_true, if_false]
    rw [ReplaceAll_of_not_contains _ "\x7b\x7b.Version\x7d\x7d" _ (by decide),
      ReplaceAll_of_not_contains _ "\x7b\x7b.PreviousVersion\x7d\x7d" _ (by decide),
      ReplaceAll_of_not_contains _ "\x7b\x7b.TagName\x7d\x7d" _ (by decide),
      ReplaceAll_of_not_contains _ "\x7b\x7b.ReleaseType\x7d\x7d" _ (by decide)]
    simp only [ne_eq, hb, not_false_eq_true, if_true]
    rw [ReplaceAll_self _ _ (by decide), ReplaceAll_slash]
  have hne : processTemplate "\x7b\x7b.Branch\x7d\x7d" ctx ≠ "" := by
    rw [key]
    intro h
    apply hb
    have h2 := congrArg String.data h
    simp only [List.map_eq_nil_iff] at h2
    exact String.ext h2
  refine ⟨key, ?_, ?_, ?_, hne, ?_⟩
  · rw [key]
    simp only [List.mem_map, not_exists, not_and]
    intro c _
    by_cases hc : c = '/'
    · simp [hc]
    · simp [hc]
  · rw [key]
    show (ctx.Branch.data.map (fun c => if c = '/' then '-' else c)).length
      = ctx.Branch.data.length
    exact List.length_map _ _
  · rw [key]
    simp only [String.utf8ByteSize]
    generalize ctx.Branch.data = l
    induction l with
    | nil => rfl
    | cons c l ih =>
      simp only [List.map_cons, String.utf8ByteSize.go, ih]
      by_cases hc : c = '/'
      · subst hc; rfl
      · rw [if_neg hc]
  · rw [processTags_eq_filter]
    simp [hne]

/-- C10 at the branch `feature/x/y`, which gives `feature-x-y`. -/
theorem processTemplate_branch_witness :
    processTemplate "\x7b\x7b.Branch\x7d\x7d"
        { Version := "", PreviousVersion := "", TagName := "", ReleaseType := "",
          Branch := "feature/x/y" } = "feature-x-y" :=
  (processTemplate_branch
    { Version := "", PreviousVersion := "", TagName := "", ReleaseType := "",
      Branch := "feature/x/y" } (by decide)).1.trans (by decide)

/-! ## The shape of a failing run -/

theorem failure_shape (w : World) (cfg : Config) (ctx : ReleaseContext)
    (hd : cfg.DryRun = false) (pre post : List Event) (c : Call) (derr : GoError)
    (h : calls (executeCfg w cfg ctx).2 = pre ++ Event.call c (some derr) :: post) :
    (∃ done r rest t0, targetRegions cfg = done ++ r :: rest ∧
      c = .Authenticate r (some (authCfgOf cfg)) ∧
      pre = done.map (authOk cfg) ∧ post = [] ∧
      executeCfg w cfg ctx =
        ((none, some (.wrap ("failed to authenticate with " ++ r ++ ": " ++ derr.Error) derr)),
          t0 ++ [Event.call c (some derr)])) ∨
    (∃ done x rest t0 e,
      targetImages cfg (targetRegions cfg) (processTags cfg.Tags ctx) = done ++ x :: rest ∧
      c = .Tag cfg.SourceImage x ∧
      (w t0 (tagCmd cfg.SourceImage x)).err = some e ∧
      derr = dockerErr "tag" e (w t0 (tagCmd cfg.SourceImage x)).output ∧
      pre = (targetRegions cfg).map (authOk cfg) ++ done.flatMap (pairOk cfg) ∧ post = [] ∧
      executeCfg w cfg ctx =
        ((none, some (.wrap ("failed to tag image: " ++ derr.Error) derr)),
          t0 ++ [Event.exec (tagCmd cfg.SourceImage x), Event.call c (some derr)])) ∨
    (∃ done x rest t0 e,
      targetImages cfg (targetRegions cfg) (processTags cfg.Tags ctx) = done ++ x :: rest ∧
      c = .Push x ∧
      (w t0 (pushCmd x)).err = some e ∧
      derr = dockerErr "push" e (w t0 (pushCmd x)).output ∧
      pre = (targetRegions cfg).map (authOk cfg) ++ done.flatMap (pairOk cfg)
        ++ [Event.call (.Tag cfg.SourceImage x) none] ∧ post = [] ∧
      executeCfg w cfg ctx =
        ((none, some (.wrap ("failed to push image: " ++ derr.Error) derr)),
          t0 ++ [Event.exec (pushCmd x), Event.call c (some derr)])) := by
  have hbad : (Event.call c (some derr)).ok = false := rfl
  rcases executeCfg_cases w cfg ctx hd with
    ⟨t1, h1, h2⟩ | ⟨done, r, rest, derr2, t0, h1, h2, h3⟩ |
    ⟨done, x, rest, err, fails, t1, h1, h2, h3, h4⟩
  · exfalso
    rw [h1] at h
    simp only at h
    rw [h2] at h
    refine no_failure_of_all_ok (A := _) ?_ hbad h
    intro a ha
    rcases List.mem_append.1 ha with ha | ha
    · exact authOk_ok cfg _ a ha
    · exact pairOk_ok cfg _ a ha
  · left
    rw [h2] at h
    simp only at h
    have hc : calls (t0 ++ [Event.call (.Authenticate r (some (authCfgOf cfg))) (some derr2)])
        = done.map (authOk cfg)
          ++ [Event.call (.Authenticate r (some (authCfgOf cfg))) (some derr2)] := by
      rw [calls_append, h3]; rfl
    rw [hc] at h
    obtain ⟨k1, k2, k3⟩ := split_at_failure (authOk_ok cfg done) hbad h
    simp only [Event.call.injEq, Option.some.injEq] at k2
    obtain ⟨rfl, rfl⟩ := k2
    exact ⟨done, r, rest, t0, h1, rfl, k1, k3, h2⟩
  · right
    rw [h2] at h
    simp only at h
    rw [h4] at h
    have hA : ∀ a ∈ (targetRegions cfg).map (authOk cfg) ++ done.flatMap (pairOk cfg),
        a.ok = true := by
      intro a ha
      rcases List.mem_append.1 ha with ha | ha
      · exact authOk_ok cfg _ a ha
      · exact pairOk_ok cfg _ a ha
    rcases h3 with ⟨t0, e, k1, k2, k3, k4⟩ | ⟨t0, e, k1, k2, k3, k4⟩
    · left
      rw [k3] at h
      obtain ⟨m1, m2, m3⟩ := split_at_failure hA hbad h
      simp only [Event.call.injEq, Option.some.injEq] at m2
      obtain ⟨rfl, rfl⟩ := m2
      refine ⟨done, x, rest, t0, e, h1, rfl, k1, rfl, m1, m3, ?_⟩
      rw [h2, k2, k4]
    · right
      rw [k3] at h
      have hA2 : ∀ a ∈ (targetRegions cfg).map (authOk cfg) ++ done.flatMap (pairOk cfg)
          ++ [Event.call (.Tag cfg.SourceImage x) none], a.ok = true := by
        intro a ha
        rcases List.mem_append.1 ha with ha | ha
        · exact hA a ha
        · simp only [List.mem_singleton] at ha; subst ha; rfl
      have h' : ((targetRegions cfg).map (authOk cfg) ++ done.flatMap (pairOk cfg)
          ++ [Event.call (.Tag cfg.SourceImage x) none])
          ++ [Event.call (.Push x) (some (dockerErr "push" e (w t0 (pushCmd x)).output))]
          = pre ++ Event.call c (some derr) :: post := by
        rw [← h]; simp
      obtain ⟨m1, m2, m3⟩ := split_at_failure hA2 hbad h'
      simp only [Event.call.injEq, Option.some.injEq] at m2
      obtain ⟨rfl, rfl⟩ := m2
      refine ⟨done, x, rest, t0, e, h1, rfl, k1, rfl, m1, m3, ?_⟩
      rw [h2, k2, k4]

theorem targetImages_length (cfg : Config) (regions tags : List String) :
    (targetImages cfg regions tags).length = regions.length * tags.length := by
  induction regions with
  | nil => simp [targetImages]
  | cons r rest ih =>
    rw [targetImages_cons, List.length_append, List.length_map, ih, List.length_cons,
      Nat.succ_mul, Nat.add_comm]

theorem targetImage_eq (cfg : Config) (region tag : String) :
    targetImage cfg region tag =
      (regionClientOf cfg region).getRegistryHost region ++ "/" ++ cfg.Project ++ "/"
        ++ (if cfg.ArtifactRegistry = true then cfg.Repository ++ "/" else "")
        ++ cfg.Image ++ ":" ++ tag := by
  unfold targetImage GCRClient.GetImagePath GCRClient.getRegistryHost regionClientOf
    NewGCRClient
  cases cfg.ArtifactRegistry <;> simp [String.append_assoc]

/-! ## The validator -/

theorem errors_addError_if (c : Prop) [Decidable c] (vb : ValidationBuilder)
    (field message : String) :
    (if c then vb.AddError field message else vb).errors =
      vb.errors ++ (if c then [{ Field := field, Message := message }] else []) := by
  by_cases h : c <;> simp [h, ValidationBuilder.AddError]

/-- C2: the report of `Validate` is exactly the six rules of the spec, each
contributing at most one issue, in rule order, with no short-circuit; no other
issue appears and `Validate` returns no error.  In particular each of
`project`, `image` and `source_image` has exactly one issue when the field is
empty and none otherwise. -/
theorem validate_report_is_six_rules (p : ConfigParser) (config : RawMap) :
    (Validate p config).2 = none ∧
      (Validate p config).1.Errors = specIssues (parseConfig p config) ∧
      (Validate p config).1.Valid = (specIssues (parseConfig p config)).isEmpty ∧
      (Validate p config).1.Errors.countP (fun e => decide (e.Field = "project"))
        = (if (parseConfig p config).Project = "" then 1 else 0) ∧
      (Validate p config).1.Errors.countP (fun e => decide (e.Field = "image"))
        = (if (parseConfig p config).Image = "" then 1 else 0) ∧
      (Validate p config).1.Errors.countP (fun e => decide (e.Field = "source_image"))
        = (if (parseConfig p config).SourceImage = "" then 1 else 0) := by
  have key : (Validate p config).1.Errors = specIssues (parseConfig p config) := by
    simp only [Validate, specIssues, ValidationBuilder.Build, errors_addError_if,
      NewValidationBuilder, List.nil_append]
  have hv : (Validate p config).1.Valid = (Validate p config).1.Errors.isEmpty := rfl
  refine ⟨rfl, key, by rw [hv, key], ?_, ?_, ?_⟩ <;>
  · rw [key]
    unfold specIssues
    generalize parseConfig p config = cfg
    simp only [List.countP_append]
    split_ifs <;> rfl

/-! ## The push orchestrator -/

/-- C1: when the configuration's `dry_run` flag or the request's dry-run flag
is set, `Execute` makes no `Authenticate`, `Tag` or `Push` call and starts no
process, succeeds, and returns as `pushed_images` the references of all
(region, tag) pairs, region-major and tag-minor, so `|regions| * |tags|` of
them; each reference starts with the registry host of its own region. -/
theorem dry_run_makes_no_call (p : ConfigParser) (w : World) (req : ExecuteRequest)
    (h : (parseConfig p req.Config).DryRun = true ∨ req.DryRun = true) :
    calls (Execute p w req).2 = [] ∧ execs (Execute p w req).2 = [] ∧
      (Execute p w req).1 =
        (some (successResponse (effectiveConfig p req)
          (processTags (effectiveConfig p req).Tags req.Context)
          (targetImages (effectiveConfig p req) (targetRegions (effectiveConfig p req))
            (processTags (effectiveConfig p req).Tags req.Context))), none) ∧
      (∀ resp, (Execute p w req).1.1 = some resp →
        resp.Success = true ∧
        resp.Outputs.get "pushed_images" = some (.strs
          ((targetRegions (effectiveConfig p req)).flatMap (fun region =>
            (processTags (effectiveConfig p req).Tags req.Context).map (fun tag =>
              (regionClientOf (effectiveConfig p req) region).GetImagePath
                (effectiveConfig p req).Image ++ ":" ++ tag))))) ∧
      (targetImages (effectiveConfig p req) (targetRegions (effectiveConfig p req))
          (processTags (effectiveConfig p req).Tags req.Context)).length
        = (targetRegions (effectiveConfig p req)).length
          * (processTags (effectiveConfig p req).Tags req.Context).length ∧
      (∀ region tag, targetImage (effectiveConfig p req) region tag =
        (regionClientOf (effectiveConfig p req) region).getRegistryHost region ++ "/"
          ++ (effectiveConfig p req).Project ++ "/"
          ++ (if (effectiveConfig p req).ArtifactRegistry = true
              then (effectiveConfig p req).Repository ++ "/" else "")
          ++ (effectiveConfig p req).Image ++ ":" ++ tag) := by
  have hd : (effectiveConfig p req).DryRun = true := by
    show ((parseConfig p req.Config).DryRun || req.DryRun) = true
    rcases h with h | h <;> simp [h]
  obtain ⟨out, h1, h2, h3⟩ := executeCfg_dry w (effectiveConfig p req) req.Context hd
  have hE : Execute p w req = executeCfg w (effectiveConfig p req) req.Context := rfl
  rw [hE, h1]
  refine ⟨h2, h3, rfl, ?_, targetImages_length _ _ _, targetImage_eq _⟩
  intro resp hresp
  simp only [Option.some.injEq] at hresp
  subst hresp
  exact ⟨rfl, rfl⟩

/-- C1 on two regions and two tags with the host's dry-run flag set: no call,
no process, and the four references. -/
theorem dry_run_makes_no_call_witness :
    reqTwoRegionsDry.DryRun = true ∧
      calls (Execute plainParser quietWorld reqTwoRegionsDry).2 = [] ∧
      execs (Execute plainParser quietWorld reqTwoRegionsDry).2 = [] ∧
      targetImages (effectiveConfig plainParser reqTwoRegionsDry)
          (targetRegions (effectiveConfig plainParser reqTwoRegionsDry))
          (processTags (effectiveConfig plainParser reqTwoRegionsDry).Tags ctxRelease)
        = ["us-central1-docker.pkg.dev/p/r/app:1.0.0",
           "us-central1-docker.pkg.dev/p/r/app:latest",
           "europe-west1-docker.pkg.dev/p/r/app:1.0.0",
           "europe-west1-docker.pkg.dev/p/r/app:latest"] :=
  ⟨rfl, (dry_run_makes_no_call plainParser quietWorld reqTwoRegionsDry (Or.inr rfl)).1,
    (dry_run_makes_no_call plainParser quietWorld reqTwoRegionsDry (Or.inr rfl)).2.1,
    by decide⟩

/-- C3: on a run that is not a dry run and in which every collaborator call
returns no error, the calls are exactly one `Authenticate` per target region,
in region order, and after all of them, for each region in order and each
resolved tag in order, the tag of the source image as the target followed by
the push of the target; the run succeeds with those targets as
`pushed_images`, and there are `|regions| * |tags|` tag and push pairs. -/
theorem real_run_call_sequence (p : ConfigParser) (w : World) (req : ExecuteRequest)
    (hd : (effectiveConfig p req).DryRun = false)
    (hok : ∀ e ∈ calls (Execute p w req).2, e.ok = true) :
    calls (Execute p w req).2 =
        (targetRegions (effectiveConfig p req)).map (authOk (effectiveConfig p req))
        ++ (targetImages (effectiveConfig p req) (targetRegions (effectiveConfig p req))
            (processTags (effectiveConfig p req).Tags req.Context)).flatMap
          (pairOk (effectiveConfig p req)) ∧
      (Execute p w req).1 =
        (some (successResponse (effectiveConfig p req)
          (processTags (effectiveConfig p req).Tags req.Context)
          (targetImages (effectiveConfig p req) (targetRegions (effectiveConfig p req))
            (processTags (effectiveConfig p req).Tags req.Context))), none) ∧
      (targetImages (effectiveConfig p req) (targetRegions (effectiveConfig p req))
          (processTags (effectiveConfig p req).Tags req.Context)).length
        = (targetRegions (effectiveConfig p req)).length
          * (processTags (effectiveConfig p req).Tags req.Context).length := by
  have hE : Execute p w req = executeCfg w (effectiveConfig p req) req.Context := rfl
  rw [hE] at hok ⊢
  rcases executeCfg_cases w (effectiveConfig p req) req.Context hd with
    ⟨t1, h1, h2⟩ | ⟨done, r, rest, derr, t0, h1, h2, h3⟩ |
    ⟨done, x, rest, err, fails, t1, h1, h2, h3, h4⟩
  · rw [h1]
    exact ⟨h2, rfl, targetImages_length _ _ _⟩
  · exfalso
    rw [h2] at hok
    have := hok (Event.call (.Authenticate r (some (authCfgOf (effectiveConfig p req))))
      (some derr)) (by simp [calls_append, calls, Event.isCall])
    cases this
  · exfalso
    rw [h2] at hok
    simp only at hok
    rw [h4] at hok
    rcases h3 with ⟨t0, e, k1, k2, k3, k4⟩ | ⟨t0, e, k1, k2, k3, k4⟩
    · have := hok _ (List.mem_append_right _ (by rw [k3]; exact List.mem_singleton.2 rfl))
      cases this
    · have := hok (Event.call (.Push x) (some (dockerErr "push" e (w t0 (pushCmd x)).output)))
        (List.mem_append_right _ (by rw [k3]; simp))
      cases this

/-- C3 on two regions and two tags: two `Authenticate` calls, then four tag and
push pairs, region-major and tag-minor. -/
theorem real_run_call_sequence_witness :
    calls (Execute plainParser quietWorld reqTwoRegions).2 =
      [authOk (effectiveConfig plainParser reqTwoRegions) "us-central1",
       authOk (effectiveConfig plainParser reqTwoRegions) "europe-west1",
       .call (.Tag "app:build" "us-central1-docker.pkg.dev/p/r/app:1.0.0") none,
       .call (.Push "us-central1-docker.pkg.dev/p/r/app:1.0.0") none,
       .call (.Tag "app:build" "us-central1-docker.pkg.dev/p/r/app:latest") none,
       .call (.Push "us-central1-docker.pkg.dev/p/r/app:latest") none,
       .call (.Tag "app:build" "europe-west1-docker.pkg.dev/p/r/app:1.0.0") none,
       .call (.Push "europe-west1-docker.pkg.dev/p/r/app:1.0.0") none,
       .call (.Tag "app:build" "europe-west1-docker.pkg.dev/p/r/app:latest") none,
       .call (.Push "europe-west1-docker.pkg.dev/p/r/app:latest") none] :=
  (real_run_call_sequence plainParser quietWorld reqTwoRegions (by decide)
    (by decide)).1.trans (by decide)

/-- C4: on a run that is not a dry run, when a tag or a push call fails, that
call is the last event of the whole run (no push after a failed tag, no
further pair, no other call or process), `Execute` returns an error and no
response, and the calls made before it are the `Authenticate` calls of all
regions and, for every pair before the failing one, its successful tag and
push (with the successful tag of the failing pair when the push failed):
nothing undoes them. -/
theorem tag_push_failure_fail_fast (p : ConfigParser) (w : World) (req : ExecuteRequest)
    (hd : (effectiveConfig p req).DryRun = false)
    (pre post : List Event) (c : Call) (derr : GoError)
    (hc : c.isAuthenticate = false)
    (h : calls (Execute p w req).2 = pre ++ Event.call c (some derr) :: post) :
    post = [] ∧
      (Execute p w req).2.getLast? = some (Event.call c (some derr)) ∧
      (∃ err, (Execute p w req).1 = (none, some err)) ∧
      ∃ done x rest,
        targetImages (effectiveConfig p req) (targetRegions (effectiveConfig p req))
            (processTags (effectiveConfig p req).Tags req.Context) = done ++ x :: rest ∧
        ((c = .Tag (effectiveConfig p req).SourceImage x ∧
            pre = (targetRegions (effectiveConfig p req)).map (authOk (effectiveConfig p req))
              ++ done.flatMap (pairOk (effectiveConfig p req))) ∨
          (c = .Push x ∧
            pre = (targetRegions (effectiveConfig p req)).map (authOk (effectiveConfig p req))
              ++ done.flatMap (pairOk (effectiveConfig p req))
              ++ [Event.call (.Tag (effectiveConfig p req).SourceImage x) none])) := by
  have hE : Execute p w req = executeCfg w (effectiveConfig p req) req.Context := rfl
  rw [hE] at h ⊢
  rcases failure_shape w (effectiveConfig p req) req.Context hd pre post c derr h with
    ⟨done, r, rest, t0, h1, h2, h3, h4, h5⟩ |
    ⟨done, x, rest, t0, e, h1, h2, h3, h4, h5, h6, h7⟩ |
    ⟨done, x, rest, t0, e, h1, h2, h3, h4, h5, h6, h7⟩
  · rw [h2] at hc; cases hc
  · rw [h7]
    exact ⟨h6, by simp, ⟨_, rfl⟩, done, x, rest, h1, Or.inl ⟨h2, h5⟩⟩
  · rw [h7]
    exact ⟨h6, by simp, ⟨_, rfl⟩, done, x, rest, h1, Or.inr ⟨h2, h5⟩⟩

/-- C4 on two regions and two tags where the push of the second pair fails:
the first pair and the tag of the second were made, nothing follows. -/
theorem tag_push_failure_fail_fast_witness :
    calls (Execute plainParser pushFailsWorld reqTwoRegions).2 =
        [authOk (effectiveConfig plainParser reqTwoRegions) "us-central1",
         authOk (effectiveConfig plainParser reqTwoRegions) "europe-west1",
         .call (.Tag "app:build" "us-central1-docker.pkg.dev/p/r/app:1.0.0") none,
         .call (.Push "us-central1-docker.pkg.dev/p/r/app:1.0.0") none,
         .call (.Tag "app:build" "us-central1-docker.pkg.dev/p/r/app:latest") none]
        ++ .call (.Push "us-central1-docker.pkg.dev/p/r/app:latest")
            (some (dockerErr "push" (.leaf "exit status 1") "denied: Permission denied\n"))
          :: [] ∧
      (Execute plainParser pushFailsWorld reqTwoRegions).2.getLast? =
        some (.call (.Push "us-central1-docker.pkg.dev/p/r/app:latest")
          (some (dockerErr "push" (.leaf "exit status 1") "denied: Permission denied\n"))) :=
  ⟨by decide,
    (tag_push_failure_fail_fast plainParser pushFailsWorld reqTwoRegions (by decide)
      [authOk (effectiveConfig plainParser reqTwoRegions) "us-central1",
       authOk (effectiveConfig plainParser reqTwoRegions) "europe-west1",
       .call (.Tag "app:build" "us-central1-docker.pkg.dev/p/r/app:1.0.0") none,
       .call (.Push "us-central1-docker.pkg.dev/p/r/app:1.0.0") none,
       .call (.Tag "app:build" "us-central1-docker.pkg.dev/p/r/app:latest") none]
      [] (.Push "us-central1-docker.pkg.dev/p/r/app:latest")
      (dockerErr "push" (.leaf "exit status 1") "denied: Permission denied\n")
      rfl (by decide)).2.1⟩

/-- C5: on a run that is not a dry run, when `Authenticate` fails for a region,
that call is the last event of the run, the calls before it are the successful
`Authenticate` calls of the regions listed before it (so no tag and no push is
made), and `Execute` returns no response and the error
`failed to authenticate with <region>: <collaborator message>`, which contains
the region and wraps the collaborator's error. -/
theorem auth_failure_fail_fast (p : ConfigParser) (w : World) (req : ExecuteRequest)
    (hd : (effectiveConfig p req).DryRun = false)
    (pre post : List Event) (r : String) (a : Option AuthConfig) (derr : GoError)
    (h : calls (Execute p w req).2 =
      pre ++ Event.call (.Authenticate r a) (some derr) :: post) :
    post = [] ∧
      (Execute p w req).2.getLast? = some (Event.call (.Authenticate r a) (some derr)) ∧
      (∃ done rest, targetRegions (effectiveConfig p req) = done ++ r :: rest ∧
        pre = done.map (authOk (effectiveConfig p req))) ∧
      (∀ e ∈ calls (Execute p w req).2, ∃ r1 a1 err1, e = Event.call (.Authenticate r1 a1) err1) ∧
      (∃ err, (Execute p w req).1 = (none, some err) ∧
        err.Error = "failed to authenticate with " ++ r ++ ": " ++ derr.Error ∧
        r.data <:+: err.Error.data ∧
        err.Unwrap = some derr) := by
  have hE : Execute p w req = executeCfg w (effectiveConfig p req) req.Context := rfl
  have hcalls := h
  rw [hE] at h ⊢
  rcases failure_shape w (effectiveConfig p req) req.Context hd pre post _ derr h with
    ⟨done, r1, rest, t0, h1, h2, h3, h4, h5⟩ |
    ⟨done, x, rest, t0, e, h1, h2, h3, h4, h5, h6, h7⟩ |
    ⟨done, x, rest, t0, e, h1, h2, h3, h4, h5, h6, h7⟩
  · simp only [Call.Authenticate.injEq] at h2
    obtain ⟨rfl, rfl⟩ := h2
    refine ⟨h4, by rw [h5]; simp, ⟨done, rest, h1, h3⟩, ?_,
      .wrap ("failed to authenticate with " ++ r ++ ": " ++ derr.Error) derr,
      by rw [h5], rfl, ?_, rfl⟩
    · rw [← hE, hcalls, h3, h4]
      intro e he
      rcases List.mem_append.1 he with he | he
      · simp only [List.mem_map] at he
        obtain ⟨r2, _, rfl⟩ := he
        exact ⟨r2, _, none, rfl⟩
      · simp only [List.mem_singleton] at he
        exact ⟨r, _, _, he⟩
    · refine ⟨("failed to authenticate with " : String).data, (": " ++ derr.Error).data, ?_⟩
      simp [GoError.Error, String.append_assoc]
  · cases h2
  · cases h2

/-- C5 on two regions where `gcloud` fails for the second: the first region
was authenticated, the error names `europe-west1`, nothing follows. -/
theorem auth_failure_fail_fast_witness :
    calls (Execute plainParser authFailsWorld reqTwoRegions).2 =
        [authOk (effectiveConfig plainParser reqTwoRegions) "us-central1"]
        ++ .call (.Authenticate "europe-west1"
            (some (authCfgOf (effectiveConfig plainParser reqTwoRegions))))
            (some (.wrap ("gcloud auth failed: exit status 1\nERROR: "
              ++ "(gcloud.auth.configure-docker) You do not currently have an active account\n")
              (.leaf "exit status 1"))) :: [] ∧
      (Execute plainParser authFailsWorld reqTwoRegions).2.getLast? =
        some (.call (.Authenticate "europe-west1"
            (some (authCfgOf (effectiveConfig plainParser reqTwoRegions))))
            (some (.wrap ("gcloud auth failed: exit status 1\nERROR: "
              ++ "(gcloud.auth.configure-docker) You do not currently have an active account\n")
              (.leaf "exit status 1")))) :=
  ⟨by decide,
    (auth_failure_fail_fast plainParser authFailsWorld reqTwoRegions (by decide)
      [authOk (effectiveConfig plainParser reqTwoRegions) "us-central1"] []
      "europe-west1" (some (authCfgOf (effectiveConfig plainParser reqTwoRegions)))
      (.wrap ("gcloud auth failed: exit status 1\nERROR: "
        ++ "(gcloud.auth.configure-docker) You do not currently have an active account\n")
        (.leaf "exit status 1"))
      (by decide)).2.1⟩

theorem tag_message (e : GoError) (out : String) :
    (GoError.wrap ("failed to tag image: " ++ (dockerErr "tag" e out).Error)
        (dockerErr "tag" e out)).Error
      = "failed to tag image: docker tag failed: " ++ e.Error ++ "\n" ++ out := by
  apply String.ext
  simp [dockerErr, GoError.Error]

theorem push_message (e : GoError) (out : String) :
    (GoError.wrap ("failed to push image: " ++ (dockerErr "push" e out).Error)
        (dockerErr "push" e out)).Error
      = "failed to push image: docker push failed: " ++ e.Error ++ "\n" ++ out := by
  apply String.ext
  simp [dockerErr, GoError.Error]

/-- C6, as stated, fails: on `reqTwoRegions` (not a dry run), when `docker tag`
of the first target fails with `exit status 1` and Docker's "No such image"
output, `Execute` returns the error
`failed to tag image: docker tag failed: exit status 1` followed by that
output, and this message does not contain the target
`us-central1-docker.pkg.dev/p/r/app:1.0.0`. -/
theorem tag_error_omits_target :
    (effectiveConfig plainParser reqTwoRegions).DryRun = false ∧
      (calls (Execute plainParser tagFailsWorld reqTwoRegions).2).getLast? =
        some (.call (.Tag "app:build" "us-central1-docker.pkg.dev/p/r/app:1.0.0")
          (some (dockerErr "tag" (.leaf "exit status 1")
            "Error response from daemon: No such image: app:build\n"))) ∧
      (Execute plainParser tagFailsWorld reqTwoRegions).1.2 =
        some (.wrap ("failed to tag image: docker tag failed: exit status 1\n"
            ++ "Error response from daemon: No such image: app:build\n")
          (dockerErr "tag" (.leaf "exit status 1")
            "Error response from daemon: No such image: app:build\n")) ∧
      ¬ ("us-central1-docker.pkg.dev/p/r/app:1.0.0" : String).data <:+:
        ("failed to tag image: docker tag failed: exit status 1\n"
          ++ "Error response from daemon: No such image: app:build\n" : String).data := by
  refine ⟨by decide, by decide, by decide, ?_⟩
  rw [← Contains_true_iff]
  decide

/-- C6, amended: on a run that is not a dry run, when the tag or the push of a
target fails, `Execute` returns no response and an error that wraps the
collaborator's error, which wraps the process error; its message is
`failed to tag image: docker tag failed: <process error>`, a line break and
the process output (`push` for a push).  The program adds no image reference
of its own: the message contains the target whenever the process output
does. -/
theorem tag_push_error_wraps_diagnostic (p : ConfigParser) (w : World)
    (req : ExecuteRequest) (hd : (effectiveConfig p req).DryRun = false)
    (pre post : List Event) (c : Call) (derr : GoError)
    (hc : c.isAuthenticate = false)
    (h : calls (Execute p w req).2 = pre ++ Event.call c (some derr) :: post) :
    ∃ x t0 e out err,
      x ∈ targetImages (effectiveConfig p req) (targetRegions (effectiveConfig p req))
        (processTags (effectiveConfig p req).Tags req.Context) ∧
      (Execute p w req).1 = (none, some err) ∧
      err.Unwrap = some derr ∧ derr.Unwrap = some e ∧
      (x.data <:+: out.data → x.data <:+: err.Error.data) ∧
      ((c = .Tag (effectiveConfig p req).SourceImage x ∧
          w t0 (tagCmd (effectiveConfig p req).SourceImage x) = ⟨out, some e⟩ ∧
          err.Error = "failed to tag image: docker tag failed: " ++ e.Error ++ "\n" ++ out) ∨
        (c = .Push x ∧
          w t0 (pushCmd x) = ⟨out, some e⟩ ∧
          err.Error = "failed to push image: docker push failed: " ++ e.Error ++ "\n"
            ++ out)) := by
  have hE : Execute p w req = executeCfg w (effectiveConfig p req) req.Context := rfl
  rw [hE] at h ⊢
  rcases failure_shape w (effectiveConfig p req) req.Context hd pre post c derr h with
    ⟨done, r, rest, t0, h1, h2, h3, h4, h5⟩ |
    ⟨done, x, rest, t0, e, h1, h2, h3, h4, h5, h6, h7⟩ |
    ⟨done, x, rest, t0, e, h1, h2, h3, h4, h5, h6, h7⟩
  · rw [h2] at hc; cases hc
  · refine ⟨x, t0, e, (w t0 (tagCmd (effectiveConfig p req).SourceImage x)).output,
      .wrap ("failed to tag image: " ++ derr.Error) derr,
      by rw [h1]; simp, by rw [h7], rfl, by rw [h4]; rfl, ?_, Or.inl ⟨h2, ?_, ?_⟩⟩
    · rintro ⟨l, r, hlr⟩
      refine ⟨("failed to tag image: docker tag failed: " ++ e.Error ++ "\n").data ++ l, r, ?_⟩
      rw [h4]
      simp [GoError.Error, dockerErr, String.append_assoc, ← hlr]
    · rw [← h3]
    · rw [h4]
      exact tag_message e _
  · refine ⟨x, t0, e, (w t0 (pushCmd x)).output,
      .wrap ("failed to push image: " ++ derr.Error) derr,
      by rw [h1]; simp, by rw [h7], rfl, by rw [h4]; rfl, ?_, Or.inr ⟨h2, ?_, ?_⟩⟩
    · rintro ⟨l, r, hlr⟩
      refine ⟨("failed to push image: docker push failed: " ++ e.Error ++ "\n").data ++ l, r, ?_⟩
      rw [h4]
      simp [GoError.Error, dockerErr, String.append_assoc, ← hlr]
    · rw [← h3]
    · rw [h4]
      exact push_message e _

/-- C6, amended, where the push of the second target fails with
`denied: Permission denied`. -/
theorem tag_push_error_wraps_diagnostic_witness :
    (Execute plainParser pushFailsWorld reqTwoRegions).1.2 =
      some (.wrap ("failed to push image: docker push failed: exit status 1\n"
          ++ "denied: Permission denied\n")
        (dockerErr "push" (.leaf "exit status 1") "denied: Permission denied\n")) ∧
    ∃ x t0 e out err,
      x ∈ targetImages (effectiveConfig plainParser reqTwoRegions)
        (targetRegions (effectiveConfig plainParser reqTwoRegions))
        (processTags (effectiveConfig plainParser reqTwoRegions).Tags
          reqTwoRegions.Context) ∧
      (Execute plainParser pushFailsWorld reqTwoRegions).1 = (none, some err) ∧
      err.Unwrap = some (dockerErr "push" (.leaf "exit status 1")
        "denied: Permission denied\n") ∧
      (dockerErr "push" (.leaf "exit status 1") "denied: Permission denied\n").Unwrap
        = some e ∧
      (x.data <:+: out.data → x.data <:+: err.Error.data) ∧
      ((Call.Push "us-central1-docker.pkg.dev/p/r/app:latest"
            = .Tag (effectiveConfig plainParser reqTwoRegions).SourceImage x ∧
          pushFailsWorld t0 (tagCmd (effectiveConfig plainParser reqTwoRegions).SourceImage x)
            = ⟨out, some e⟩ ∧
          err.Error = "failed to tag image: docker tag failed: " ++ e.Error ++ "\n" ++ out) ∨
        (Call.Push "us-central1-docker.pkg.dev/p/r/app:latest" = .Push x ∧
          pushFailsWorld t0 (pushCmd x) = ⟨out, some e⟩ ∧
          err.Error = "failed to push image: docker push failed: " ++ e.Error ++ "\n"
            ++ out)) :=
  ⟨by decide,
    tag_push_error_wraps_diagnostic plainParser pushFailsWorld reqTwoRegions (by decide)
      [authOk (effectiveConfig plainParser reqTwoRegions) "us-central1",
       authOk (effectiveConfig plainParser reqTwoRegions) "europe-west1",
       .call (.Tag "app:build" "us-central1-docker.pkg.dev/p/r/app:1.0.0") none,
       .call (.Push "us-central1-docker.pkg.dev/p/r/app:1.0.0") none,
       .call (.Tag "app:build" "us-central1-docker.pkg.dev/p/r/app:latest") none]
      [] (.Push "us-central1-docker.pkg.dev/p/r/app:latest")
      (dockerErr "push" (.leaf "exit status 1") "denied: Permission denied\n")
      rfl (by decide)⟩

/-! ## Tag-template resolution: pass-through cases -/

/-- C11: with an empty branch the branch placeholder is left verbatim:
`{{.Branch}}` resolves to itself, and the one-template list resolves to the
list holding the unresolved placeholder. -/
theorem processTemplate_empty_branch (ctx : ReleaseContext) (hb : ctx.Branch = "") :
    processTemplate "\x7b\x7b.Branch\x7d\x7d" ctx = "\x7b\x7b.Branch\x7d\x7d" ∧
      processTags ["\x7b\x7b.Branch\x7d\x7d"] ctx = ["\x7b\x7b.Branch\x7d\x7d"] := by
  have key : processTemplate "\x7b\x7b.Branch\x7d\x7d" ctx = "\x7b\x7b.Branch\x7d\x7d" := by
    unfold processTemplate
    have h0 : Contains "\x7b\x7b.Branch\x7d\x7d" "\x7b\x7bif" = false := by decide
    simp only [h0, Bool.false_eq_true, if_false]
    rw [ReplaceAll_of_not_contains _ "\x7b\x7b.Version\x7d\x7d" _ (by decide),
      ReplaceAll_of_not_contains _ "\x7b\x7b.PreviousVersion\x7d\x7d" _ (by decide),
      ReplaceAll_of_not_contains _ "\x7b\x7b.TagName\x7d\x7d" _ (by decide),
      ReplaceAll_of_not_contains _ "\x7b\x7b.ReleaseType\x7d\x7d" _ (by decide)]
    simp [hb]
  refine ⟨key, ?_⟩
  rw [processTags_eq_filter]
  simp only [List.map_cons, List.map_nil, key]
  decide

/-- C11 at a context that has a version and no branch. -/
theorem processTemplate_empty_branch_witness :
    processTags ["\x7b\x7b.Branch\x7d\x7d"]
        { Version := "2.0.0", PreviousVersion := "", TagName := "", ReleaseType := "",
          Branch := "" } = ["\x7b\x7b.Branch\x7d\x7d"] :=
  (processTemplate_empty_branch
    { Version := "2.0.0", PreviousVersion := "", TagName := "", ReleaseType := "",
      Branch := "" } rfl).2

/-- C12: a template that contains neither `{{if` nor any of the five
placeholders `{{.Version}}`, `{{.PreviousVersion}}`, `{{.TagName}}`,
`{{.ReleaseType}}`, `{{.Branch}}` is returned unchanged by `processTemplate`,
for every release context; when it is not empty, the one-template list
resolves to the list holding it. -/
theorem processTemplate_passthrough (tmpl : String) (ctx : ReleaseContext)
    (h0 : ¬ ("\x7b\x7bif" : String).data <:+: tmpl.data)
    (h1 : ¬ ("\x7b\x7b.Version\x7d\x7d" : String).data <:+: tmpl.data)
    (h2 : ¬ ("\x7b\x7b.PreviousVersion\x7d\x7d" : String).data <:+: tmpl.data)
    (h3 : ¬ ("\x7b\x7b.TagName\x7d\x7d" : String).data <:+: tmpl.data)
    (h4 : ¬ ("\x7b\x7b.ReleaseType\x7d\x7d" : String).data <:+: tmpl.data)
    (h5 : ¬ ("\x7b\x7b.Branch\x7d\x7d" : String).data <:+: tmpl.data) :
    processTemplate tmpl ctx = tmpl ∧
      (tmpl ≠ "" → processTags [tmpl] ctx = [tmpl]) := by
  have key : processTemplate tmpl ctx = tmpl := by
    unfold processTemplate
    simp only [(Contains_false_iff _ _).2 h0, Bool.false_eq_true, if_false]
    rw [ReplaceAll_of_not_contains _ _ _ ((Contains_false_iff _ _).2 h1),
      ReplaceAll_of_not_contains _ _ _ ((Contains_false_iff _ _).2 h2),
      ReplaceAll_of_not_contains _ _ _ ((Contains_false_iff _ _).2 h3),
      ReplaceAll_of_not_contains _ _ _ ((Contains_false_iff _ _).2 h4)]
    by_cases hb : ctx.Branch = ""
    · simp [hb]
    · simp only [ne_eq, hb, not_false_eq_true, if_true]
      exact ReplaceAll_of_not_contains _ _ _ ((Contains_false_iff _ _).2 h5)
  refine ⟨key, ?_⟩
  intro hne
  rw [processTags_eq_filter]
  simp [key, hne]

/-- C12 at the literal `stable` and at the unknown placeholder `{{.Foo}}`, in
the context of the test suite. -/
theorem processTemplate_passthrough_witness :
    processTags ["stable"]
        { Version := "1.2.3", PreviousVersion := "1.2.2", TagName := "v1.2.3",
          ReleaseType := "minor", Branch := "feature/new-feature" } = ["stable"] ∧
      processTemplate "\x7b\x7b.Foo\x7d\x7d"
        { Version := "1.2.3", PreviousVersion := "1.2.2", TagName := "v1.2.3",
          ReleaseType := "minor", Branch := "feature/new-feature" }
        = "\x7b\x7b.Foo\x7d\x7d" :=
  ⟨(processTemplate_passthrough "stable"
      { Version := "1.2.3", PreviousVersion := "1.2.2", TagName := "v1.2.3",
        ReleaseType := "minor", Branch := "feature/new-feature" }
      (by rw [← Contains_true_iff]; decide) (by rw [← Contains_true_iff]; decide)
      (by rw [← Contains_true_iff]; decide) (by rw [← Contains_true_iff]; decide)
      (by rw [← Contains_true_iff]; decide) (by rw [← Contains_true_iff]; decide)).2
      (by decide),
    (processTemplate_passthrough "\x7b\x7b.Foo\x7d\x7d"
      { Version := "1.2.3", PreviousVersion := "1.2.2", TagName := "v1.2.3",
        ReleaseType := "minor", Branch := "feature/new-feature" }
      (by rw [← Contains_true_iff]; decide) (by rw [← Contains_true_iff]; decide)
      (by rw [← Contains_true_iff]; decide) (by rw [← Contains_true_iff]; decide)
      (by rw [← Contains_true_iff]; decide) (by rw [← Contains_true_iff]; decide)).1⟩

/-! ## The registry address builder -/

/-- C13: in artifact-registry mode the registry host of a region is the
region followed by `-docker.pkg.dev`, verbatim; in legacy mode it is `gcr.io`
for `us`, `eu.gcr.io` for `eu` and `europe`, `asia.gcr.io` for `asia`, and
`gcr.io` for every other region, so always one of these three hostnames.  The
function is total: it returns a host for every region. -/
theorem getRegistryHost_table (c : GCRClient) (region : String) :
    (c.config.ArtifactRegistry = true →
        c.getRegistryHost region = region ++ "-docker.pkg.dev") ∧
      (c.config.ArtifactRegistry = false →
        (region = "us" → c.getRegistryHost region = "gcr.io") ∧
        (region = "eu" ∨ region = "europe" → c.getRegistryHost region = "eu.gcr.io") ∧
        (region = "asia" → c.getRegistryHost region = "asia.gcr.io") ∧
        (region ≠ "us" ∧ region ≠ "eu" ∧ region ≠ "europe" ∧ region ≠ "asia" →
          c.getRegistryHost region = "gcr.io") ∧
        c.getRegistryHost region ∈ ["gcr.io", "eu.gcr.io", "asia.gcr.io"]) := by
  unfold GCRClient.getRegistryHost
  constructor
  · intro h; simp [h]
  · intro h
    simp only [h, Bool.false_eq_true, if_false]
    refine ⟨?_, ?_, ?_, ?_, ?_⟩
    · rintro rfl; rfl
    · rintro (rfl | rfl) <;> rfl
    · rintro rfl; rfl
    · rintro ⟨h1, h2, h3, h4⟩; simp [h1, h2, h3, h4]
    · split_ifs <;> simp

/-- C13 on the hosts of the test suite. -/
theorem getRegistryHost_table_witness :
    arClient.getRegistryHost "us-central1" = "us-central1-docker.pkg.dev" ∧
      legacyClient.getRegistryHost "europe" = "eu.gcr.io" :=
  ⟨(getRegistryHost_table arClient "us-central1").1 rfl,
    ((getRegistryHost_table legacyClient "europe").2 rfl).2.1 (Or.inr rfl)⟩

/-- C14: in artifact-registry mode the image path is the registry host of the
client's own region, then the project, the repository and the image,
separated by `/`; in legacy mode it is the host, the project and the image.
In both modes the path starts with that host, and in legacy mode it does not
depend on the repository. -/
theorem getImagePath_layout (c : GCRClient) (image : String) :
    c.GetRegistryHost = c.getRegistryHost c.config.Region ∧
      (c.config.ArtifactRegistry = true →
        c.GetImagePath image = c.GetRegistryHost ++ "/" ++ c.config.Project ++ "/"
          ++ c.config.Repository ++ "/" ++ image) ∧
      (c.config.ArtifactRegistry = false →
        c.GetImagePath image = c.GetRegistryHost ++ "/" ++ c.config.Project ++ "/" ++ image) ∧
      c.GetRegistryHost.data <+: (c.GetImagePath image).data ∧
      (c.config.ArtifactRegistry = false → ∀ repository : String,
        (NewGCRClient { c.config with Repository := repository }).GetImagePath image
          = c.GetImagePath image) := by
  have hAR : c.config.ArtifactRegistry = true →
      c.GetImagePath image = c.GetRegistryHost ++ "/" ++ c.config.Project ++ "/"
        ++ c.config.Repository ++ "/" ++ image := by
    intro h
    unfold GCRClient.GetImagePath GCRClient.GetRegistryHost GCRClient.getRegistryHost
    simp only [h, if_true]
    apply String.ext
    simp
  have hL : c.config.ArtifactRegistry = false →
      c.GetImagePath image = c.GetRegistryHost ++ "/" ++ c.config.Project ++ "/" ++ image := by
    intro h
    unfold GCRClient.GetImagePath GCRClient.GetRegistryHost
    simp [h]
  refine ⟨rfl, hAR, hL, ?_, ?_⟩
  · cases h : c.config.ArtifactRegistry
    · rw [hL h]
      exact ⟨("/" ++ c.config.Project ++ "/" ++ image).data, by simp [String.append_assoc]⟩
    · rw [hAR h]
      exact ⟨("/" ++ c.config.Project ++ "/" ++ c.config.Repository ++ "/" ++ image).data,
        by simp [String.append_assoc]⟩
  · intro h repository
    unfold GCRClient.GetImagePath GCRClient.getRegistryHost NewGCRClient
    simp [h]

/-- C14 on the two paths of the test suite. -/
theorem getImagePath_layout_witness :
    arClient.GetImagePath "my-app" = "us-central1-docker.pkg.dev/my-project/my-repo/my-app" ∧
      legacyClient.GetImagePath "my-app" = "gcr.io/my-project/my-app" :=
  ⟨((getImagePath_layout arClient "my-app").2.1 rfl).trans (by decide),
    ((getImagePath_layout legacyClient "my-app").2.2.1 rfl).trans (by decide)⟩

/-! ## The target regions -/

theorem calls_within_targets (w : World) (cfg : Config) (ctx : ReleaseContext) :
    ∀ e ∈ calls (executeCfg w cfg ctx).2,
      (∃ r a err, e = Event.call (.Authenticate r a) err ∧ r ∈ targetRegions cfg) ∨
      (∃ x err, (e = Event.call (.Tag cfg.SourceImage x) err ∨ e = Event.call (.Push x) err) ∧
        x ∈ targetImages cfg (targetRegions cfg) (processTags cfg.Tags ctx)) := by
  have hauth : ∀ (rs : List String), (∀ r ∈ rs, r ∈ targetRegions cfg) →
      ∀ e ∈ rs.map (authOk cfg),
        ∃ r a err, e = Event.call (.Authenticate r a) err ∧ r ∈ targetRegions cfg := by
    intro rs hrs e he
    simp only [List.mem_map] at he
    obtain ⟨r, hr, rfl⟩ := he
    exact ⟨r, _, none, rfl, hrs r hr⟩
  have hpair : ∀ (xs : List String),
      (∀ x ∈ xs, x ∈ targetImages cfg (targetRegions cfg) (processTags cfg.Tags ctx)) →
      ∀ e ∈ xs.flatMap (pairOk cfg),
        ∃ x err, (e = Event.call (.Tag cfg.SourceImage x) err ∨ e = Event.call (.Push x) err) ∧
          x ∈ targetImages cfg (targetRegions cfg) (processTags cfg.Tags ctx) := by
    intro xs hxs e he
    simp only [List.mem_flatMap, pairOk, List.mem_cons, List.mem_singleton] at he
    obtain ⟨x, hx, h⟩ := he
    simp only [List.not_mem_nil, or_false] at h
    rcases h with rfl | rfl
    · exact ⟨x, none, Or.inl rfl, hxs x hx⟩
    · exact ⟨x, none, Or.inr rfl, hxs x hx⟩
  intro e he
  cases hd : cfg.DryRun with
  | true =>
    obtain ⟨out, h1, h2, _⟩ := executeCfg_dry w cfg ctx hd
    rw [h1] at he
    simp only [h2, List.not_mem_nil] at he
  | false =>
    rcases executeCfg_cases w cfg ctx hd with
      ⟨t1, h1, h2⟩ | ⟨done, r, rest, derr, t0, h1, h2, h3⟩ |
      ⟨done, x, rest, err, fails, t1, h1, h2, h3, h4⟩
    · rw [h1] at he
      simp only [h2] at he
      rcases List.mem_append.1 he with he | he
      · exact Or.inl (hauth _ (fun _ hr => hr) e he)
      · exact Or.inr (hpair _ (fun _ hx => hx) e he)
    · rw [h2] at he
      simp only [calls_append, h3] at he
      rcases List.mem_append.1 he with he | he
      · exact Or.inl (hauth done (fun r0 hr => by rw [h1]; simp [hr]) e he)
      · simp only [calls, List.filter_cons, Event.isCall, if_true, List.filter_nil,
          List.mem_singleton] at he
        exact Or.inl ⟨r, _, _, he, by rw [h1]; simp⟩
    · rw [h2] at he
      simp only [h4] at he
      have hx : x ∈ targetImages cfg (targetRegions cfg) (processTags cfg.Tags ctx) := by
        rw [h1]; simp
      rcases List.mem_append.1 he with he | he
      · rcases List.mem_append.1 he with he | he
        · exact Or.inl (hauth _ (fun _ hr => hr) e he)
        · exact Or.inr (hpair done (fun y hy => by rw [h1]; simp [hy]) e he)
      · rcases h3 with ⟨t0, e0, k1, k2, k3, k4⟩ | ⟨t0, e0, k1, k2, k3, k4⟩
        · rw [k3] at he
          simp only [List.mem_singleton] at he
          exact Or.inr ⟨x, _, Or.inl he, hx⟩
        · rw [k3] at he
          simp only [List.mem_cons, List.mem_singleton, List.not_mem_nil, or_false] at he
          rcases he with he | he
          · exact Or.inr ⟨x, _, Or.inl he, hx⟩
          · exact Or.inr ⟨x, _, Or.inr he, hx⟩

/-- C15: the target regions are `MultiRegionRegions` (same elements, same
order, duplicates kept) when `MultiRegionEnabled` is set and that list is not
empty, and the one-element list holding `Region` otherwise; the list is never
empty; when multi-region applies, `Region` is a target only if it is listed.
These are the regions `Execute` works on: in every run, each `Authenticate`
call is for one of them and each tag or push is of a target image of one of
them. -/
theorem targetRegions_rule (cfg : Config) :
    targetRegions cfg =
        (if cfg.MultiRegionEnabled = true ∧ cfg.MultiRegionRegions ≠ []
          then cfg.MultiRegionRegions else [cfg.Region]) ∧
      targetRegions cfg ≠ [] ∧
      (cfg.MultiRegionEnabled = true → cfg.MultiRegionRegions ≠ [] →
        (cfg.Region ∈ targetRegions cfg ↔ cfg.Region ∈ cfg.MultiRegionRegions)) ∧
      (∀ (w : World) (ctx : ReleaseContext), ∀ e ∈ calls (executeCfg w cfg ctx).2,
        (∃ r a err, e = Event.call (.Authenticate r a) err ∧ r ∈ targetRegions cfg) ∨
        (∃ x err,
          (e = Event.call (.Tag cfg.SourceImage x) err ∨ e = Event.call (.Push x) err) ∧
          x ∈ targetImages cfg (targetRegions cfg) (processTags cfg.Tags ctx))) := by
  have key : targetRegions cfg =
      (if cfg.MultiRegionEnabled = true ∧ cfg.MultiRegionRegions ≠ []
        then cfg.MultiRegionRegions else [cfg.Region]) := by
    unfold targetRegions
    by_cases h : cfg.MultiRegionEnabled = true ∧ cfg.MultiRegionRegions ≠ []
    · have h2 : cfg.MultiRegionEnabled = true ∧ cfg.MultiRegionRegions.length > 0 :=
        ⟨h.1, List.length_pos.2 h.2⟩
      rw [if_pos h, if_pos h2]
    · have h2 : ¬ (cfg.MultiRegionEnabled = true ∧ cfg.MultiRegionRegions.length > 0) :=
        fun h3 => h ⟨h3.1, List.length_pos.1 h3.2⟩
      rw [if_neg h, if_neg h2]
  refine ⟨key, ?_, ?_, fun w ctx => calls_within_targets w cfg ctx⟩
  · rw [key]
    split_ifs with h
    · exact h.2
    · simp
  · intro h1 h2
    rw [key, if_pos ⟨h1, h2⟩]

/-- C15 on the two-region configuration, where the targets are the two listed
regions, and on a configuration with no multi-region setting, where the target
is the default region. -/
theorem targetRegions_rule_witness :
    targetRegions (effectiveConfig plainParser reqTwoRegions)
        = ["us-central1", "europe-west1"] ∧
      targetRegions (parseConfig plainParser rawNoAuth) = ["us-central1"] :=
  ⟨(targetRegions_rule (effectiveConfig plainParser reqTwoRegions)).1.trans (by decide),
    (targetRegions_rule (parseConfig plainParser rawNoAuth)).1.trans (by decide)⟩

/-! ## The validator: single rules -/

theorem Validate_errors_eq (p : ConfigParser) (config : RawMap) :
    (Validate p config).1.Errors = specIssues (parseConfig p config) := by
  simp only [Validate, specIssues, ValidationBuilder.Build, errors_addError_if,
    NewValidationBuilder, List.nil_append]

/-- C16: when the resolved method is `service_account`, the authentication
issues of the report (fields `auth` and `auth.method`) are exactly the one
`auth` issue when `KeyFile` and `KeyJSON` are both empty, and none as soon as
either is not empty; no `auth.method` issue is reported. -/
theorem service_account_key_rule (p : ConfigParser) (config : RawMap)
    (hm : (parseConfig p config).AuthMethod = "service_account") :
    (Validate p config).1.Errors.filter authRelated =
        (if (parseConfig p config).KeyFile = "" ∧ (parseConfig p config).KeyJSON = "" then
          [{ Field := "auth", Message := "service account requires key_file or key_json" }]
        else []) ∧
      ((parseConfig p config).KeyFile ≠ "" ∨ (parseConfig p config).KeyJSON ≠ "" →
        (Validate p config).1.Errors.filter authRelated = []) ∧
      (Validate p config).1.Errors.countP (fun e => decide (e.Field = "auth.method")) = 0 := by
  have key : (Validate p config).1.Errors.filter authRelated =
      (if (parseConfig p config).KeyFile = "" ∧ (parseConfig p config).KeyJSON = "" then
        [{ Field := "auth", Message := "service account requires key_file or key_json" }]
      else []) := by
    rw [Validate_errors_eq]
    unfold specIssues
    generalize parseConfig p config = cfg at hm ⊢
    have h5 : ¬ (cfg.AuthMethod ≠ "" ∧ cfg.AuthMethod ≠ "gcloud"
        ∧ cfg.AuthMethod ≠ "service_account") := fun h => h.2.2 hm
    rw [if_neg h5]
    simp only [List.filter_append]
    by_cases hk : cfg.KeyFile = "" ∧ cfg.KeyJSON = ""
    · have hk3 : cfg.AuthMethod = "service_account" ∧ cfg.KeyFile = "" ∧ cfg.KeyJSON = "" :=
        ⟨hm, hk⟩
      rw [if_pos hk3, if_pos hk]
      split_ifs <;> rfl
    · have hk2 : ¬ (cfg.AuthMethod = "service_account" ∧ cfg.KeyFile = "" ∧ cfg.KeyJSON = "") :=
        fun h => hk h.2
      rw [if_neg hk, if_neg hk2]
      split_ifs <;> rfl
  refine ⟨key, ?_, ?_⟩
  · intro h
    rw [key, if_neg]
    rintro ⟨h1, h2⟩
    rcases h with h | h
    · exact h h1
    · exact h h2
  · rw [Validate_errors_eq]
    unfold specIssues
    generalize parseConfig p config = cfg at hm ⊢
    have h5 : ¬ (cfg.AuthMethod ≠ "" ∧ cfg.AuthMethod ≠ "gcloud"
        ∧ cfg.AuthMethod ≠ "service_account") := fun h => h.2.2 hm
    rw [if_neg h5]
    simp only [List.countP_append]
    split_ifs <;> rfl

/-- C16 on the test suite's "service account without key": one `auth` issue. -/
theorem service_account_key_rule_witness :
    (parseConfig plainParser rawServiceAccount).AuthMethod = "service_account" ∧
      (Validate plainParser rawServiceAccount).1.Errors.filter authRelated =
        [{ Field := "auth", Message := "service account requires key_file or key_json" }] :=
  ⟨by decide, (service_account_key_rule plainParser rawServiceAccount (by decide)).1.trans
    (by decide)⟩

/-- C17: the report holds exactly one `repository` issue when
`ArtifactRegistry` is set and `Repository` is empty, and none otherwise: with
an empty repository, one in artifact-registry mode and none in legacy mode;
with a repository, never one. -/
theorem repository_rule (p : ConfigParser) (config : RawMap) :
    (Validate p config).1.Errors.filter (fun e => decide (e.Field = "repository")) =
        (if (parseConfig p config).ArtifactRegistry = true
            ∧ (parseConfig p config).Repository = "" then
          [{ Field := "repository",
             Message := "repository name required for Artifact Registry" }]
        else []) ∧
      ((parseConfig p config).Repository = "" →
        ((parseConfig p config).ArtifactRegistry = true →
          (Validate p config).1.Errors.countP (fun e => decide (e.Field = "repository")) = 1) ∧
        ((parseConfig p config).ArtifactRegistry = false →
          (Validate p config).1.Errors.countP (fun e => decide (e.Field = "repository")) = 0)) ∧
      ((parseConfig p config).Repository ≠ "" →
        (Validate p config).1.Errors.countP (fun e => decide (e.Field = "repository")) = 0) := by
  have key : (Validate p config).1.Errors.filter (fun e => decide (e.Field = "repository")) =
      (if (parseConfig p config).ArtifactRegistry = true
          ∧ (parseConfig p config).Repository = "" then
        [{ Field := "repository",
           Message := "repository name required for Artifact Registry" }]
      else []) := by
    rw [Validate_errors_eq]
    unfold specIssues
    generalize parseConfig p config = cfg
    simp only [List.filter_append]
    split_ifs <;> rfl
  have hc : (Validate p config).1.Errors.countP (fun e => decide (e.Field = "repository"))
      = ((Validate p config).1.Errors.filter
          (fun e => decide (e.Field = "repository"))).length := List.countP_eq_length_filter _ _
  refine ⟨key, ?_, ?_⟩
  · intro hr
    constructor
    · intro ha
      rw [hc, key, if_pos ⟨ha, hr⟩]; rfl
    · intro ha
      rw [hc, key, if_neg (by simp [ha])]; rfl
  · intro hr
    rw [hc, key, if_neg (fun h => hr h.2)]; rfl

/-- C17 on the test suite: no repository with artifact registry gives one
issue, and the legacy configuration without repository gives none. -/
theorem repository_rule_witness :
    (Validate plainParser
        [("project", .str "my-project"), ("image", .str "my-app"),
         ("source_image", .str "myapp:latest"), ("artifact_registry", .bool true)]
      ).1.Errors.countP (fun e => decide (e.Field = "repository")) = 1 ∧
      (Validate plainParser
        [("project", .str "my-project"), ("image", .str "my-app"),
         ("source_image", .str "myapp:latest"), ("artifact_registry", .bool false)]
      ).1.Errors.countP (fun e => decide (e.Field = "repository")) = 0 :=
  ⟨((repository_rule plainParser
      [("project", .str "my-project"), ("image", .str "my-app"),
       ("source_image", .str "myapp:latest"), ("artifact_registry", .bool true)]).2.1
      (by decide)).1 (by decide),
    ((repository_rule plainParser
      [("project", .str "my-project"), ("image", .str "my-app"),
       ("source_image", .str "myapp:latest"), ("artifact_registry", .bool false)]).2.1
      (by decide)).2 (by decide)⟩

/-! ## The configuration resolver -/

/-- C18: for every raw configuration and whatever the SDK's getter returns
for `tags`, the resolved `Tags` list is not empty: it is the one-element list
`{{.Version}}` when the parsed list is empty and the parsed list otherwise;
`parseConfig` is a total function, so it never fails.  With the getters of
the spec this covers a `tags` key that is absent, wrong-typed, an empty list
or a non-empty list. -/
theorem parseConfig_tags_never_empty (p : ConfigParser) (raw : RawMap) :
    (parseConfig p raw).Tags ≠ [] ∧
      (parseConfig p raw).Tags =
        (if p.GetStringSlice raw "tags" [] = [] then ["\x7b\x7b.Version\x7d\x7d"]
          else p.GetStringSlice raw "tags" []) ∧
      (∀ getenv : String → String,
        ((∀ v, raw.get "tags" ≠ some (.strs v)) →
          (parseConfig (sdkParser getenv) raw).Tags = ["\x7b\x7b.Version\x7d\x7d"]) ∧
        (raw.get "tags" = some (.strs []) →
          (parseConfig (sdkParser getenv) raw).Tags = ["\x7b\x7b.Version\x7d\x7d"]) ∧
        (∀ t ts, raw.get "tags" = some (.strs (t :: ts)) →
          (parseConfig (sdkParser getenv) raw).Tags = t :: ts)) := by
  have key : ∀ q : ConfigParser, (parseConfig q raw).Tags =
      (if q.GetStringSlice raw "tags" [] = [] then ["\x7b\x7b.Version\x7d\x7d"]
        else q.GetStringSlice raw "tags" []) := by
    intro q
    unfold parseConfig
    simp only [List.length_eq_zero]
  refine ⟨?_, key p, ?_⟩
  · rw [key p]
    split_ifs with h
    · simp
    · exact h
  · intro getenv
    have hs : (sdkParser getenv).GetStringSlice raw "tags" [] = sdkGetStringSlice raw "tags" [] :=
      rfl
    refine ⟨?_, ?_, ?_⟩
    · intro h
      rw [key, hs]
      have : sdkGetStringSlice raw "tags" [] = [] := by
        unfold sdkGetStringSlice
        split
        · rename_i v hv; exact absurd hv (h v)
        · rfl
      rw [this]; rfl
    · intro h
      rw [key, hs]
      have : sdkGetStringSlice raw "tags" [] = [] := by
        unfold sdkGetStringSlice; rw [h]
      rw [this]; rfl
    · intro t ts h
      rw [key, hs]
      have : sdkGetStringSlice raw "tags" [] = t :: ts := by
        unfold sdkGetStringSlice; rw [h]
      rw [this]; rfl

/-- C18 on the empty map and on the map of `TestParseConfig`. -/
theorem parseConfig_tags_never_empty_witness :
    (parseConfig (sdkParser emptyEnv) []).Tags = ["\x7b\x7b.Version\x7d\x7d"] ∧
      (parseConfig (sdkParser emptyEnv) rawMultiRegionSection).Tags = ["v1.0.0", "latest"] :=
  ⟨((parseConfig_tags_never_empty (sdkParser emptyEnv) []).2.2 emptyEnv).1
      (fun _ h => nomatch h),
    ((parseConfig_tags_never_empty (sdkParser emptyEnv) rawMultiRegionSection).2.2
      emptyEnv).2.2 "v1.0.0" ["latest"] rfl⟩

/-- C19, as stated, fails: with `GOOGLE_APPLICATION_CREDENTIALS` set to
`/secrets/key.json` and `GCP_SERVICE_ACCOUNT_JSON` set, a raw configuration
with no `auth` section (so with no `key_file` and no `key_json`) resolves to
an empty `KeyFile` and an empty `KeyJSON`: the variables are not read. -/
theorem credentials_env_ignored_without_auth_section :
    envWithCredentials "GOOGLE_APPLICATION_CREDENTIALS" = "/secrets/key.json" ∧
      envWithCredentials "GCP_SERVICE_ACCOUNT_JSON" = "key-json" ∧
      (rawNoAuth.get "auth").isNone = true ∧
      (parseConfig (sdkParser envWithCredentials) rawNoAuth).KeyFile = "" ∧
      (parseConfig (sdkParser envWithCredentials) rawNoAuth).KeyJSON = "" ∧
      (parseConfig (sdkParser envWithCredentials) rawNoAuth).KeyFile
        ≠ envWithCredentials "GOOGLE_APPLICATION_CREDENTIALS" := by
  refine ⟨by decide, by decide, rfl, by decide, by decide, by decide⟩

/-- C19, amended: when the raw map has an `auth` section (a map) that does
not give `key_file`, the resolved `KeyFile` is the value of
`GOOGLE_APPLICATION_CREDENTIALS` when that variable is set and not empty, and
the default `""` otherwise; likewise `key_json` with
`GCP_SERVICE_ACCOUNT_JSON`; an explicit non-empty `key_file` wins over the
variable.  When the raw map has no `auth` section (absent, or not a map),
`KeyFile` and `KeyJSON` are empty and the method is `gcloud`, whatever the
parser and the environment. -/
theorem credentials_env_fallback (getenv : String → String) (raw : RawMap) :
    (∀ authRaw : RawMap, raw.get "auth" = some (.map authRaw) →
      (authRaw.get "key_file" = none →
        (parseConfig (sdkParser getenv) raw).KeyFile =
          (if getenv "GOOGLE_APPLICATION_CREDENTIALS" ≠ ""
            then getenv "GOOGLE_APPLICATION_CREDENTIALS" else "")) ∧
      (authRaw.get "key_json" = none →
        (parseConfig (sdkParser getenv) raw).KeyJSON =
          (if getenv "GCP_SERVICE_ACCOUNT_JSON" ≠ ""
            then getenv "GCP_SERVICE_ACCOUNT_JSON" else "")) ∧
      (∀ v, v ≠ "" → authRaw.get "key_file" = some (.str v) →
        (parseConfig (sdkParser getenv) raw).KeyFile = v)) ∧
    ((∀ authRaw, raw.get "auth" ≠ some (.map authRaw)) →
      ∀ p : ConfigParser,
        (parseConfig p raw).KeyFile = "" ∧ (parseConfig p raw).KeyJSON = "" ∧
        (parseConfig p raw).AuthMethod = "gcloud") := by
  constructor
  · intro authRaw hauth
    have hf : (parseConfig (sdkParser getenv) raw).KeyFile =
        sdkGetString getenv authRaw "key_file" "GOOGLE_APPLICATION_CREDENTIALS" "" := by
      unfold parseConfig
      simp only [hauth]
      rfl
    have hj : (parseConfig (sdkParser getenv) raw).KeyJSON =
        sdkGetString getenv authRaw "key_json" "GCP_SERVICE_ACCOUNT_JSON" "" := by
      unfold parseConfig
      simp only [hauth]
      rfl
    refine ⟨?_, ?_, ?_⟩
    · intro h
      rw [hf]
      unfold sdkGetString sdkEnvOrDefault
      rw [h]
      have : ("GOOGLE_APPLICATION_CREDENTIALS" : String) ≠ "" := by decide
      simp only [this, ne_eq, not_false_eq_true, true_and]
    · intro h
      rw [hj]
      unfold sdkGetString sdkEnvOrDefault
      rw [h]
      have : ("GCP_SERVICE_ACCOUNT_JSON" : String) ≠ "" := by decide
      simp only [this, ne_eq, not_false_eq_true, true_and]
    · intro v hv h
      rw [hf]
      unfold sdkGetString
      rw [h]
      simp only [hv, ne_eq, not_false_eq_true, if_true]
  · intro h p
    unfold parseConfig
    cases hget : raw.get "auth" with
    | none => exact ⟨rfl, rfl, rfl⟩
    | some a =>
      cases a with
      | map m => exact absurd hget (h m)
      | null => exact ⟨rfl, rfl, rfl⟩
      | bool _ => exact ⟨rfl, rfl, rfl⟩
      | str _ => exact ⟨rfl, rfl, rfl⟩
      | int _ => exact ⟨rfl, rfl, rfl⟩
      | strs _ => exact ⟨rfl, rfl, rfl⟩
      | list _ => exact ⟨rfl, rfl, rfl⟩

/-- C19, amended, on the test suite's "service account without key" with the
credentials variables set: the key file and the key come from the
environment. -/
theorem credentials_env_fallback_witness :
    (parseConfig (sdkParser envWithCredentials) rawServiceAccount).KeyFile
        = "/secrets/key.json" ∧
      (parseConfig (sdkParser envWithCredentials) rawServiceAccount).KeyJSON = "key-json" :=
  ⟨(((credentials_env_fallback envWithCredentials rawServiceAccount).1
      [("method", .str "service_account")] rfl).1 rfl).trans (by decide),
    (((credentials_env_fallback envWithCredentials rawServiceAccount).1
      [("method", .str "service_account")] rfl).2.1 rfl).trans (by decide)⟩

/-- C20 on the code: `parseConfig` reads `MultiRegionEnabled` from the
`multi_region` sub-map, but reads `MultiRegionRegions` with the top-level
parser under the key `multi_region.regions`, never from the sub-map.  On the
map of `TestParseConfig`, whose `multi_region` section holds `enabled = true`
and `regions = [us, europe, asia]`, the resolved configuration has
`MultiRegionEnabled = true` and no region at all, so the only target region is
the configured `us-west1`. -/
theorem multi_region_regions_read_at_top_level :
    (∀ (p : ConfigParser) (raw : RawMap),
      (parseConfig p raw).MultiRegionRegions
        = p.GetStringSlice raw "multi_region.regions" []) ∧
    (∀ (p : ConfigParser) (raw mrRaw : RawMap), raw.get "multi_region" = some (.map mrRaw) →
      (parseConfig p raw).MultiRegionEnabled = p.GetBool mrRaw "enabled" false) ∧
    (parseConfig (sdkParser emptyEnv) rawMultiRegionSection).MultiRegionEnabled = true ∧
    (parseConfig (sdkParser emptyEnv) rawMultiRegionSection).MultiRegionRegions = [] ∧
    (parseConfig (sdkParser emptyEnv) rawMultiRegionSection).MultiRegionRegions
      ≠ ["us", "europe", "asia"] ∧
    targetRegions (parseConfig (sdkParser emptyEnv) rawMultiRegionSection) = ["us-west1"] := by
  refine ⟨fun _ _ => rfl, ?_, by decide, by decide, by decide, by decide⟩
  intro p raw mrRaw h
  unfold parseConfig
  simp only [h]

/-! ## Runs with no resolved tag, and dry runs against real runs -/

theorem targetImages_nil (cfg : Config) (regions : List String) :
    targetImages cfg regions [] = [] := by
  induction regions with
  | nil => rfl
  | cons r rest ih => rw [targetImages_cons, ih]; rfl

theorem processTags_eq_nil (tags : List String) (ctx : ReleaseContext)
    (h : ∀ t ∈ tags, processTemplate t ctx = "") : processTags tags ctx = [] := by
  rw [processTags_eq_filter, List.filter_eq_nil_iff]
  intro r hr
  simp only [List.mem_map] at hr
  obtain ⟨t, ht, rfl⟩ := hr
  simp [h t ht]

theorem executeCfg_all_ok (w : World) (cfg : Config) (ctx : ReleaseContext)
    (hd : cfg.DryRun = false)
    (hok : ∀ e ∈ calls (executeCfg w cfg ctx).2, e.ok = true) :
    (executeCfg w cfg ctx).1 =
        (some (successResponse cfg (processTags cfg.Tags ctx)
          (targetImages cfg (targetRegions cfg) (processTags cfg.Tags ctx))), none) ∧
      calls (executeCfg w cfg ctx).2 = (targetRegions cfg).map (authOk cfg) ++
        (targetImages cfg (targetRegions cfg) (processTags cfg.Tags ctx)).flatMap
          (pairOk cfg) := by
  rcases executeCfg_cases w cfg ctx hd with
    ⟨t1, h1, h2⟩ | ⟨done, r, rest, derr, t0, h1, h2, h3⟩ |
    ⟨done, x, rest, err, fails, t1, h1, h2, h3, h4⟩
  · rw [h1]; exact ⟨rfl, h2⟩
  · exfalso
    rw [h2] at hok
    have := hok (Event.call (.Authenticate r (some (authCfgOf cfg))) (some derr))
      (by simp [calls_append, calls, Event.isCall])
    cases this
  · exfalso
    rw [h2] at hok
    simp only at hok
    rw [h4] at hok
    rcases h3 with ⟨t0, e, k1, k2, k3, k4⟩ | ⟨t0, e, k1, k2, k3, k4⟩
    · have := hok _ (List.mem_append_right _ (by rw [k3]; exact List.mem_singleton.2 rfl))
      cases this
    · have := hok (Event.call (.Push x) (some (dockerErr "push" e (w t0 (pushCmd x)).output)))
        (List.mem_append_right _ (by rw [k3]; simp))
      cases this

/-- C21, as stated, fails: on `reqConditionalTags` (not a dry run), whose only
tag template is a conditional one and so resolves to the empty string, when
`gcloud` fails for the region, `Execute` returns no response and the error
`failed to authenticate with us-central1: ...`, not a success. -/
theorem zero_tags_auth_failure_is_error :
    (effectiveConfig plainParser reqConditionalTags).DryRun = false ∧
      (∀ t ∈ (effectiveConfig plainParser reqConditionalTags).Tags,
        processTemplate t reqConditionalTags.Context = "") ∧
      (Execute plainParser defaultAuthFailsWorld reqConditionalTags).1.1.isNone = true ∧
      (Execute plainParser defaultAuthFailsWorld reqConditionalTags).1.2 =
        some (.wrap ("failed to authenticate with us-central1: gcloud auth failed: "
            ++ "exit status 1\nERROR: (gcloud.auth.configure-docker) "
            ++ "You do not currently have an active account\n")
          (.wrap ("gcloud auth failed: exit status 1\nERROR: "
            ++ "(gcloud.auth.configure-docker) You do not currently have an active account\n")
            (.leaf "exit status 1"))) := by
  refine ⟨by decide, by decide, by decide, by decide⟩

/-- C21, amended: when every tag template resolves to the empty string,
`Execute` makes no tag and no push call in any run (every call it makes is an
`Authenticate`).  On a dry run it makes no call at all and succeeds; on a run
that is not a dry run and in which every `Authenticate` call returns no error,
it authenticates every target region, in order, and succeeds.  The success
response has no resolved tag, an empty `pushed_images` list and the message
`Successfully pushed 0 image(s) to GCR`. -/
theorem zero_tags_silent_success (p : ConfigParser) (w : World) (req : ExecuteRequest)
    (hz : ∀ t ∈ (effectiveConfig p req).Tags, processTemplate t req.Context = "") :
    processTags (effectiveConfig p req).Tags req.Context = [] ∧
      (∀ e ∈ calls (Execute p w req).2, ∃ r a err, e = Event.call (.Authenticate r a) err) ∧
      ((effectiveConfig p req).DryRun = true →
        calls (Execute p w req).2 = [] ∧
        (Execute p w req).1 = (some (successResponse (effectiveConfig p req) [] []), none)) ∧
      ((effectiveConfig p req).DryRun = false →
        (∀ e ∈ calls (Execute p w req).2, e.ok = true) →
        calls (Execute p w req).2 =
          (targetRegions (effectiveConfig p req)).map (authOk (effectiveConfig p req)) ∧
        (Execute p w req).1 = (some (successResponse (effectiveConfig p req) [] []), none)) ∧
      (successResponse (effectiveConfig p req) [] []).Success = true ∧
      (successResponse (effectiveConfig p req) [] []).Message
        = "Successfully pushed 0 image(s) to GCR" ∧
      (successResponse (effectiveConfig p req) [] []).Outputs.get "pushed_images"
        = some (.strs []) := by
  have hE : Execute p w req = executeCfg w (effectiveConfig p req) req.Context := rfl
  have htags := processTags_eq_nil _ _ hz
  have hmsg : ("Successfully pushed " ++ toString ([] : List String).length
      ++ " image(s) to GCR" : String) = "Successfully pushed 0 image(s) to GCR" := by decide
  refine ⟨htags, ?_, ?_, ?_, rfl, hmsg, rfl⟩
  · intro e he
    rw [hE] at he
    rcases calls_within_targets w (effectiveConfig p req) req.Context e he with
      ⟨r, a, err, h1, _⟩ | ⟨x, err, _, hx⟩
    · exact ⟨r, a, err, h1⟩
    · rw [htags, targetImages_nil] at hx
      cases hx
  · intro hd
    obtain ⟨out, h1, h2, _⟩ := executeCfg_dry w (effectiveConfig p req) req.Context hd
    rw [hE, h1, htags, targetImages_nil]
    exact ⟨h2, rfl⟩
  · intro hd hok
    rw [hE] at hok ⊢
    obtain ⟨h1, h2⟩ := executeCfg_all_ok w (effectiveConfig p req) req.Context hd hok
    rw [htags, targetImages_nil] at h1 h2
    exact ⟨by simpa using h2, h1⟩

/-- C21, amended, on the default template with an empty version, where every
process succeeds: one `Authenticate` call, no tag, no push, and the success
response for zero images. -/
theorem zero_tags_silent_success_witness :
    (effectiveConfig plainParser reqEmptyVersion).Tags = ["\x7b\x7b.Version\x7d\x7d"] ∧
      calls (Execute plainParser quietWorld reqEmptyVersion).2 =
        [authOk (effectiveConfig plainParser reqEmptyVersion) "us-central1"] ∧
      (Execute plainParser quietWorld reqEmptyVersion).1 =
        (some (successResponse (effectiveConfig plainParser reqEmptyVersion) [] []), none) :=
  ⟨by decide,
    ((zero_tags_silent_success plainParser quietWorld reqEmptyVersion (by decide)).2.2.2.1
      (by decide) (by decide)).1.trans (by decide),
    ((zero_tags_silent_success plainParser quietWorld reqEmptyVersion (by decide)).2.2.2.1
      (by decide) (by decide)).2⟩

/-! ## Validation and authentication -/

theorem fromTool_authenticateGcloud (c : GCRClient) (w : World) (region : String)
    (t : Trace) : FromTool w t (c.authenticateGcloud w region t) := by
  unfold GCRClient.authenticateGcloud runCmd
  simp only []
  split
  · rename_i err herr
    refine ⟨⟨_, [], rfl⟩, ?_⟩
    intro e he
    simp only [Option.some.injEq] at he
    subst he
    exact ⟨t, _, err, herr, rfl, by simp⟩
  · refine ⟨⟨_, [], rfl⟩, ?_⟩
    intro e he
    cases he

theorem fromTool_dockerLogin (w : World) (host key : String) (t : Trace) :
    FromTool w t (GCRClient.dockerLogin w host key t) := by
  unfold GCRClient.dockerLogin runCmd
  simp only []
  split
  · rename_i err herr
    refine ⟨⟨_, [], rfl⟩, ?_⟩
    intro e he
    simp only [Option.some.injEq] at he
    subst he
    exact ⟨t, _, err, herr, rfl, by simp⟩
  · refine ⟨⟨_, [], rfl⟩, ?_⟩
    intro e he
    cases he

theorem fromTool_authenticateServiceAccount (c : GCRClient) (w : World) (region : String)
    (auth : AuthConfig) (t : Trace) (hk : auth.KeyFile ≠ "" ∨ auth.KeyJSON ≠ "") :
    FromTool w t (c.authenticateServiceAccount w region auth t) := by
  unfold GCRClient.authenticateServiceAccount runCmd
  simp only []
  by_cases hf : auth.KeyFile = ""
  · have hj : auth.KeyJSON ≠ "" := by
      rcases hk with hk | hk
      · exact absurd hf hk
      · exact hk
    simp only [hf, ne_eq, not_true_eq_false, if_false, hj, not_false_eq_true, if_true]
    exact fromTool_dockerLogin w _ _ t
  · simp only [ne_eq, hf, not_false_eq_true, if_true]
    split
    · rename_i err herr
      refine ⟨⟨_, [], rfl⟩, ?_⟩
      intro e he
      simp only [Option.some.injEq] at he
      subst he
      exact ⟨t, _, err, herr, rfl, by simp⟩
    · obtain ⟨⟨cmd, rest, h1⟩, h2⟩ := fromTool_dockerLogin w (c.getRegistryHost region)
        (w t ⟨"cat", [auth.KeyFile], none, .Output⟩).output
        (t ++ [Event.exec ⟨"cat", [auth.KeyFile], none, .Output⟩])
      refine ⟨⟨⟨"cat", [auth.KeyFile], none, .Output⟩, Event.exec cmd :: rest, ?_⟩, h2⟩
      rw [h1]; simp

theorem no_issue_auth_settings (p : ConfigParser) (config : RawMap)
    (hv : (Validate p config).1.Errors = []) :
    ((parseConfig p config).AuthMethod = "" ∨ (parseConfig p config).AuthMethod = "gcloud"
        ∨ (parseConfig p config).AuthMethod = "service_account") ∧
      ((parseConfig p config).AuthMethod = "service_account" →
        (parseConfig p config).KeyFile ≠ "" ∨ (parseConfig p config).KeyJSON ≠ "") := by
  rw [Validate_errors_eq] at hv
  unfold specIssues at hv
  generalize parseConfig p config = cfg at hv ⊢
  simp only [List.append_eq_nil] at hv
  obtain ⟨⟨_, h5⟩, h6⟩ := hv
  constructor
  · by_contra hcon
    simp only [not_or] at hcon
    rw [if_pos ⟨hcon.1, hcon.2.1, hcon.2.2⟩] at h5
    cases h5
  · intro hm
    by_contra hcon
    simp only [not_or, not_not] at hcon
    rw [if_pos ⟨hm, hcon.1, hcon.2⟩] at h6
    cases h6

/-- C22: for a configuration on which `Validate` reports no issue,
`Authenticate` called with its method, key file and key, for any client,
region and history, takes neither the "unknown auth method" branch nor the
"service account key not provided" branch: the call always starts a process,
and an error it returns wraps the error of a process it started. -/
theorem validated_auth_errors_come_from_tools (p : ConfigParser) (config : RawMap)
    (hv : (Validate p config).1.Errors = [])
    (c : GCRClient) (w : World) (region : String) (t : Trace) :
    (∃ cmd rest,
        (c.Authenticate w region (some (authCfgOf (parseConfig p config))) t).2
          = t ++ Event.exec cmd :: rest) ∧
      (∀ err, (c.Authenticate w region (some (authCfgOf (parseConfig p config))) t).1
          = some err →
        ∃ t0 cmd e, (w t0 cmd).err = some e ∧ err.Unwrap = some e ∧
          Event.exec cmd
            ∈ (c.Authenticate w region (some (authCfgOf (parseConfig p config))) t).2) ∧
      (c.Authenticate w region (some (authCfgOf (parseConfig p config))) t).1
        ≠ some (.leaf ("unknown auth method: " ++ (parseConfig p config).AuthMethod)) ∧
      (c.Authenticate w region (some (authCfgOf (parseConfig p config))) t).1
        ≠ some (.leaf "service account key not provided") := by
  obtain ⟨hm, hk⟩ := no_issue_auth_settings p config hv
  have key : FromTool w t
      (c.Authenticate w region (some (authCfgOf (parseConfig p config))) t) := by
    unfold GCRClient.Authenticate
    simp only [authCfgOf]
    by_cases hg : (parseConfig p config).AuthMethod = "gcloud"
        ∨ (parseConfig p config).AuthMethod = ""
    · rw [if_pos hg]
      exact fromTool_authenticateGcloud c w region t
    · have hs : (parseConfig p config).AuthMethod = "service_account" := by
        rcases hm with h | h | h
        · exact absurd (Or.inr h) hg
        · exact absurd (Or.inl h) hg
        · exact h
      rw [if_neg hg, if_pos hs]
      exact fromTool_authenticateServiceAccount c w region _ t (hk hs)
  have hleaf : ∀ msg, (c.Authenticate w region
      (some (authCfgOf (parseConfig p config))) t).1 ≠ some (.leaf msg) := by
    intro msg h
    obtain ⟨_, _, _, _, h2, _⟩ := key.2 _ h
    cases h2
  exact ⟨key.1, key.2, hleaf _, hleaf _⟩

/-- C22 on a configuration without `auth` section, which validates with no
issue: `Authenticate` starts `gcloud`. -/
theorem validated_auth_errors_come_from_tools_witness :
    (Validate plainParser rawNoAuth).1.Errors = [] ∧
      ∃ cmd rest,
        ((regionClientOf (parseConfig plainParser rawNoAuth) "us-central1").Authenticate
          quietWorld "us-central1" (some (authCfgOf (parseConfig plainParser rawNoAuth))) []).2
          = [] ++ Event.exec cmd :: rest :=
  ⟨by decide,
    (validated_auth_errors_come_from_tools plainParser rawNoAuth (by decide)
      (regionClientOf (parseConfig plainParser rawNoAuth) "us-central1") quietWorld
      "us-central1" []).1⟩

/-! ## Dry run against real run -/

theorem effectiveConfig_dry (p : ConfigParser) (req : ExecuteRequest) :
    effectiveConfig p { req with DryRun := true }
      = { effectiveConfig p req with DryRun := true } := by
  simp [effectiveConfig]

theorem filterMap_push_auths (cfg : Config) (regions : List String) :
    (regions.map (authOk cfg)).filterMap (fun e =>
      match e with
      | .call (.Push image) _ => some image
      | _ => none) = [] := by
  induction regions with
  | nil => rfl
  | cons r rest ih =>
    rw [List.map_cons, List.filterMap_cons]
    exact ih

theorem filterMap_push_pairs (cfg : Config) (xs : List String) :
    (xs.flatMap (pairOk cfg)).filterMap (fun e =>
      match e with
      | .call (.Push image) _ => some image
      | _ => none) = xs := by
  induction xs with
  | nil => rfl
  | cons x rest ih =>
    rw [List.flatMap_cons, List.filterMap_append, ih]
    rfl

theorem pushTargets_of_calls (cfg : Config) (t : Trace) (regions xs : List String)
    (h : calls t = regions.map (authOk cfg) ++ xs.flatMap (pairOk cfg)) :
    pushTargets t = xs := by
  unfold pushTargets
  rw [h, List.filterMap_append, filterMap_push_auths, filterMap_push_pairs,
    List.nil_append]

/-- C23: when a run that is not a dry run makes only calls that return no
error, its response (success flag, message with the image count, and the
outputs `project`, `repository`, `tags`, `pushed_images`) equals the response
of `Execute` on the same request with the dry-run flag set, in any world; and
the images passed to `Push` in the real run are, in order, the dry run's
`pushed_images`. -/
theorem dry_run_predicts_real_run (p : ConfigParser) (w w2 : World) (req : ExecuteRequest)
    (hd : (effectiveConfig p req).DryRun = false)
    (hok : ∀ e ∈ calls (Execute p w req).2, e.ok = true) :
    (Execute p w req).1 = (Execute p w2 { req with DryRun := true }).1 ∧
      ∃ resp, (Execute p w2 { req with DryRun := true }).1 = (some resp, none) ∧
        resp.Success = true ∧
        resp.Message = "Successfully pushed "
          ++ toString (pushTargets (Execute p w req).2).length ++ " image(s) to GCR" ∧
        resp.Outputs.get "project" = some (.str (effectiveConfig p req).Project) ∧
        resp.Outputs.get "repository" = some (.str (effectiveConfig p req).Repository) ∧
        resp.Outputs.get "tags"
          = some (.strs (processTags (effectiveConfig p req).Tags req.Context)) ∧
        resp.Outputs.get "pushed_images" = some (.strs (pushTargets (Execute p w req).2)) := by
  have hE : Execute p w req = executeCfg w (effectiveConfig p req) req.Context := rfl
  have hE2 : Execute p w2 { req with DryRun := true }
      = executeCfg w2 { effectiveConfig p req with DryRun := true } req.Context := by
    show executeCfg w2 (effectiveConfig p { req with DryRun := true }) req.Context = _
    rw [effectiveConfig_dry]
  rw [hE] at hok
  obtain ⟨h1, h2⟩ := executeCfg_all_ok w (effectiveConfig p req) req.Context hd hok
  obtain ⟨out, k1, _, _⟩ := executeCfg_dry w2 { effectiveConfig p req with DryRun := true }
    req.Context rfl
  have hpush := pushTargets_of_calls _ _ _ _ h2
  have hsame : (executeCfg w2 { effectiveConfig p req with DryRun := true } req.Context).1 =
      (some (successResponse (effectiveConfig p req)
        (processTags (effectiveConfig p req).Tags req.Context)
        (targetImages (effectiveConfig p req) (targetRegions (effectiveConfig p req))
          (processTags (effectiveConfig p req).Tags req.Context))), none) := by
    rw [k1]; rfl
  rw [hE, hE2, h1, hsame, hpush]
  exact ⟨rfl, _, rfl, rfl, rfl, rfl, rfl, rfl, rfl⟩

/-- C23 on two regions and two tags: the real run pushes the four images the
dry run reports. -/
theorem dry_run_predicts_real_run_witness :
    pushTargets (Execute plainParser quietWorld reqTwoRegions).2 =
        ["us-central1-docker.pkg.dev/p/r/app:1.0.0",
         "us-central1-docker.pkg.dev/p/r/app:latest",
         "europe-west1-docker.pkg.dev/p/r/app:1.0.0",
         "europe-west1-docker.pkg.dev/p/r/app:latest"] ∧
      (Execute plainParser quietWorld reqTwoRegions).1
        = (Execute plainParser tagFailsWorld { reqTwoRegions with DryRun := true }).1 :=
  ⟨by decide,
    (dry_run_predicts_real_run plainParser quietWorld tagFailsWorld reqTwoRegions
      (by decide) (by decide)).1⟩

end Gcr
